import Mathlib

/-!
Verification of the world-tile generator (`src/data/generate_world_tiles.cc`).

The definitions below are a shallow embedding of that file: pixel buffers
become functions from byte offsets to byte values, the `std::unordered_map`
dedup table becomes an association list (row-by-row equality is the
authoritative comparison in the source, the hash is only an accelerator),
`TileMap` grids of metadata bitmasks become functions from (row, column) to
the bitmask value, and every `printf` diagnostic becomes a constructor of an
explicit `Diag` type.  Machine integers are modelled as `Nat`/`Int`; all
values involved stay far below 2^31, so C `int` arithmetic never overflows
and the translation is exact.  The C expression `t & ~m` is written
`t ^^^ (t &&& m)`, which computes the same function on nonnegative values,
and `(buffer << 16) | tile` is written `buffer * 65536 + tile`, which is
equal whenever `tile < 2^16`, as enforced by the tile-count limit.
-/

namespace Magero

/-- Width and height of world tiles in pixels (`kTileSize`). -/
def kTileSize : Nat := 32

/-- Maximum number of collectible tiles in the world map (`12 * 7`). -/
def kMaxCollectibleObstacles : Nat := 12 * 7

/-- Maximum number of tiles; keeps tile indices within 16 bits. -/
def kMaxTileCount : Nat := 32767

/-- Special index for the blank tile. -/
def kBlankTile : Int := -1

/-- Collision bitmasks for metadata tiles. -/
def kCollisionMask : Nat := 0x07

/-- No collision. -/
def kCollisionNone : Nat := 0x00

/-- Square collision tile. -/
def kCollisionSquare : Nat := 0x01

/-- Triangle with the upper left corner empty. -/
def kCollisionUpLeft : Nat := 0x02

/-- Triangle with the upper right corner empty. -/
def kCollisionUpRight : Nat := 0x03

/-- Triangle with the lower left corner empty. -/
def kCollisionDownLeft : Nat := 0x04

/-- Triangle with the lower right corner empty. -/
def kCollisionDownRight : Nat := 0x05

/-- Mountable with normal vector pointing up. -/
def kMountUp : Nat := 0x10

/-- Mountable with normal vector pointing down. -/
def kMountDown : Nat := 0x20

/-- Mountable with normal vector pointing left. -/
def kMountLeft : Nat := 0x40

/-- Mountable with normal vector pointing right. -/
def kMountRight : Nat := 0x80

/-- Union of the four mount bits. -/
def kMountMask : Nat := kMountUp ||| kMountDown ||| kMountLeft ||| kMountRight

/-- Mutable collision tiles; never mountable. -/
def kBreakableTile : Nat := 0x08

/-- Internal tag: collision bits are zeroed at output time. -/
def kGhostCollisionTile : Nat := 0x4000

/-- Collectible tile approached from above (wall below). -/
def kCollectibleTileUp : Nat := 0x100

/-- Collectible tile approached from below (wall above). -/
def kCollectibleTileDown : Nat := 0x200

/-- Collectible tile approached from the left (wall on the right). -/
def kCollectibleTileLeft : Nat := 0x400

/-- Collectible tile approached from the right (wall on the left). -/
def kCollectibleTileRight : Nat := 0x800

/-- Chain reaction trigger bit. -/
def kChainReaction : Nat := 0x1000

/-- Terminal reaction bit. -/
def kTerminalReaction : Nat := 0x2000

/-- Union of all collectible tile bits. -/
def kCollectibleTileMask : Nat :=
  kCollectibleTileUp ||| kCollectibleTileDown |||
  kCollectibleTileLeft ||| kCollectibleTileRight

/-- The C expression `t & ~m` on nonnegative values: clear the bits of `m`
in `t`.  (`t ^ (t & m)` removes exactly the bits `t` shares with `m`.) -/
def andNot (t m : Nat) : Nat := t ^^^ (t &&& m)

/-! ## Serializer (`IndexOfLastRow`, `WriteTileTable`) -/

/-- Loop body of `IndexOfLastRow`: scan rows from the bottom down to row 1
(row 0 is never tested), returning the first row holding a non-blank cell,
and 0 when none is found. -/
def indexOfLastRowGo (tiles : List (List Int)) : Nat → Nat
  | 0 => 0
  | r + 1 =>
    if (tiles.getD (r + 1) []).any (fun cell => cell != kBlankTile) then r + 1
    else indexOfLastRowGo tiles r

/-- `IndexOfLastRow`: index of the last row containing a non-blank tile. -/
def indexOfLastRow (tiles : List (List Int)) : Nat :=
  indexOfLastRowGo tiles (tiles.length - 1)

/-- `TableWriter::FlushBufferedNonblankValue`: emit the buffered value that
was waiting to form a pair, if any (the buffer idles at 0). -/
def pFlush (p : Int) : List Int := if p = 0 then [] else [p]

/-- The cell loop of `WriteTileTable` together with the `TableWriter` state
machine, as a pure function from the flattened cell list and the current
state (`blank_count`, `value_pair_buffer_`) to the emitted values.
A run of blanks is flushed as one negative count; non-blank values are
paired as `(buffer << 16) | tile` (written `buffer * 65536 + tile`, equal
for tile values below 2^16); at the end the pending run and the pending
buffered value are flushed. -/
def packGo : List Int → Int → Int → List Int
  | [], b, p => if 0 < b then pFlush p ++ [-b] else pFlush p
  | cell :: rest, b, p =>
    if cell = kBlankTile then packGo rest (b + 1) p
    else if 0 < b then pFlush p ++ -b :: packGo rest 0 cell
    else if p = 0 then packGo rest 0 cell
    else (p * 65536 + cell) :: packGo rest 0 0

/-- Cell count declared in the first entry of the serialized table:
`scan_limit * tiles.front().size()`. -/
def writeTileTableCount (tiles : List (List Int)) : Int :=
  (((indexOfLastRow tiles + 1) * (tiles.headD []).length : Nat) : Int)

/-- The packed values emitted by `WriteTileTable` (the body of the table
after the cell-count entry): the rows up to the scan limit, flattened in
raster order and fed through the packer with an idle initial state. -/
def writeTileTableBody (tiles : List (List Int)) : List Int :=
  packGo ((tiles.take (indexOfLastRow tiles + 1)).flatten) 0 0

/-- Modelled from the spec: the symmetric unpacker for one packed value.
The decoder lives in the game's Lua runtime, which is not under `src/`;
the spec defines it: a negative value expands to that many blank cells, a
value of at least 2^16 splits into two indices (high half first), any other
positive value is a single index. -/
def unpackValue (v : Int) : List Int :=
  if v < 0 then List.replicate (-v).toNat kBlankTile
  else if 65536 ≤ v then [v / 65536, v % 65536]
  else [v]

/-- Modelled from the spec: decode a whole packed table. -/
def unpackTable (l : List Int) : List Int := (l.map unpackValue).flatten

/-- An art-layer cell as serialized: the blank sentinel or a 1-based tile
index within the 16-bit-safe tile limit. -/
abbrev validCell (c : Int) : Prop :=
  c = kBlankTile ∨ (1 ≤ c ∧ c ≤ (kMaxTileCount : Int))

/-- Example input for the packer round trip: indices 3, 5, 7 followed by 40
blank cells, as a one-row layer. -/
def c6ExampleTiles : List (List Int) :=
  [[3, 5, 7] ++ List.replicate 40 kBlankTile]

/-- Example all-blank two-by-two layer. -/
def c10ExampleTiles : List (List Int) :=
  [[kBlankTile, kBlankTile], [kBlankTile, kBlankTile]]

/-! ## Tile indexer (`IsBlank`, `ProcessImage`) -/

/-- A decoded grayscale+alpha art image: dimensions in pixels and the raw
byte buffer (2 bytes per pixel, alpha second), as a function from byte
offset to byte value. -/
structure ArtImage where
  width : Nat
  height : Nat
  pix : Nat → Nat

/-- Pixel content of one 32x32 tile. -/
abbrev TilePixels := List (List Nat)

/-- Pixel content of one tile as `TileBlock::GetPixels` returns it: a list
of `kTileSize` row slices, each holding the `kTileSize * 2` bytes of that
row (`row_size = width * 2`; the block starts at byte
`y * row_size + x * 2` and each row advances by `row_size`). -/
def tileContent (img : ArtImage) (x y : Nat) : TilePixels :=
  (List.range kTileSize).map fun i =>
    (List.range (kTileSize * 2)).map fun j =>
      img.pix ((y + i) * (img.width * 2) + x * 2 + j)

/-- Alpha test of one row in `IsBlank`: the bytes at offsets 1, 3, 5, ...
must all be zero (the loop starts at offset 1 and steps by the 2-byte
pixel size, so it visits exactly every second byte). -/
def alphaZeros : List Nat → Bool
  | _ :: a :: rest => a = 0 && alphaZeros rest
  | _ => true

/-- `IsBlank`: true when every pixel of the tile is fully transparent. -/
def isBlank (pixels : TilePixels) : Bool := pixels.all alphaZeros

/-- The shared dedup table (`TileBlockSet`), an association list from tile
content to the 0-based tile index.  The source's `std::unordered_map`
compares keys with `EqTileBlock`, i.e. by exact equality of the pixel rows
(the hash is only an accelerator), so the rows serve as the key here. -/
abbrev Table := List (TilePixels × Nat)

/-- The shared table starts empty in `main`. -/
def emptyTable : Table := []

/-- Key lookup in the dedup table. -/
def tableLookup : Table → TilePixels → Option Nat
  | [], _ => none
  | e :: rest, c => if e.1 = c then some e.2 else tableLookup rest c

/-- `unique_tiles->insert(std::make_pair(tile, unique_tiles->size()))`:
the table after insertion together with the index recorded for the tile
(the pre-insertion size for a new tile, the existing index otherwise,
because `insert` does not overwrite an existing binding). -/
def tableInsert (t : Table) (c : TilePixels) : Table × Nat :=
  match tableLookup t c with
  | some i => (t, i)
  | none => (t ++ [(c, t.length)], t.length)

/-- Body of the `ProcessImage` cell loop at pixel offset (x, y): a blank
tile maps to the blank sentinel and leaves the table untouched; otherwise
the tile is interned and `index + 1` is recorded. -/
def processCell (img : ArtImage) (t : Table) (x y : Nat) : Table × Int :=
  let c := tileContent img x y
  if isBlank c then (t, kBlankTile)
  else
    let r := tableInsert t c
    (r.1, (r.2 : Int) + 1)

/-- Number of grid columns of an image (`width / kTileSize`). -/
def gridWidth (img : ArtImage) : Nat := img.width / kTileSize

/-- Number of grid rows of an image (`height / kTileSize`). -/
def gridHeight (img : ArtImage) : Nat := img.height / kTileSize

/-- The inner (x) loop of `ProcessImage` over the given column indices
(pixel offset `x = kTileSize * cx`), threading the table left to right. -/
def processCells (img : ArtImage) (cy : Nat) : Table → List Nat → Table × List Int
  | t, [] => (t, [])
  | t, cx :: rest =>
    let r := processCell img t (kTileSize * cx) (kTileSize * cy)
    let rr := processCells img cy r.1 rest
    (rr.1, r.2 :: rr.2)

/-- The outer (y) loop of `ProcessImage`, top to bottom. -/
def processRows (img : ArtImage) : Table → List Nat → Table × List (List Int)
  | t, [] => (t, [])
  | t, cy :: rest =>
    let r := processCells img cy t (List.range (gridWidth img))
    let rr := processRows img r.1 rest
    (rr.1, r.2 :: rr.2)

/-- `ProcessImage`: raster scan of all tile cells (y outer, x inner, both
stepping by `kTileSize`), producing the output grid and growing the shared
dedup table. -/
def processImage (img : ArtImage) (t : Table) : Table × List (List Int) :=
  processRows img t (List.range (gridHeight img))

/-- The `main` loop over the art-layer inputs in argument order, threading
the shared dedup table. -/
def processImages : Table → List ArtImage → Table × List (List (List Int))
  | t, [] => (t, [])
  | t, img :: rest =>
    let r := processImage img t
    let rr := processImages r.1 rest
    (rr.1, r.2 :: rr.2)

/-- Contents of the non-blank tiles of one grid row, in column order. -/
def cellContents (img : ArtImage) (cy : Nat) : List Nat → List TilePixels
  | [] => []
  | cx :: rest =>
    let c := tileContent img (kTileSize * cx) (kTileSize * cy)
    if isBlank c then cellContents img cy rest else c :: cellContents img cy rest

/-- Contents of the non-blank tiles of the given grid rows, in raster
order. -/
def rowContents (img : ArtImage) : List Nat → List TilePixels
  | [] => []
  | cy :: rest =>
    cellContents img cy (List.range (gridWidth img)) ++ rowContents img rest

/-- Contents of the non-blank tiles of one image, in raster order. -/
def imageContents (img : ArtImage) : List TilePixels :=
  rowContents img (List.range (gridHeight img))

/-- Contents of all non-blank tiles of an image sequence, in processing
order (input-file order, raster order within each file). -/
def scanContents : List ArtImage → List TilePixels
  | [] => []
  | img :: rest => imageContents img ++ scanContents rest

/-- Keep the first occurrence of every element of `l`, appending to the
already-seen list `acc`. -/
def firstSeen : List TilePixels → List TilePixels → List TilePixels
  | [], acc => acc
  | c :: rest, acc =>
    if c ∈ acc then firstSeen rest acc else firstSeen rest (acc ++ [c])

/-- Intern a list of tile contents in order, keeping the result table. -/
def insertAll : Table → List TilePixels → Table
  | t, [] => t
  | t, c :: rest => insertAll (tableInsert t c).1 rest

/-- Table extension: every binding of `t` is still present in `u`. -/
def tableLE (t u : Table) : Prop :=
  ∀ c i, tableLookup t c = some i → tableLookup u c = some i

/-- Value of one output grid cell expressed against a table `T`: the blank
sentinel for a blank tile, otherwise the interned index plus one. -/
def cellExpr (T : Table) (img : ArtImage) (cy cx : Nat) : Int :=
  let c := tileContent img (kTileSize * cx) (kTileSize * cy)
  if isBlank c then kBlankTile else ((tableLookup T c).getD 0 : Int) + 1

/-- A fully transparent one-tile art image. -/
def blankArtImage : ArtImage := ⟨kTileSize, kTileSize, fun _ => 0⟩

/-! ## Metadata annotation (`ProcessAnnotations`) -/

/-- A decoded RGBA metadata image: dimensions in pixels and the raw byte
buffer (4 bytes per pixel), as a function from byte offset to byte value. -/
structure MetaImage where
  width : Nat
  height : Nat
  pix : Nat → Nat

/-- `MetadataBlock::GetPixel`: the 32-bit pixel at offset (bx, b_y) inside
the tile at pixel offset (x, y), assembled little-endian (red in the least
significant byte, alpha in the most significant byte;
`row_size = width * 4`).  Each `uint8_t` read is modelled by `% 256`; the
source ORs disjoint shifted bytes, which equals this sum. -/
def mGetPixel (img : MetaImage) (x y bx b_y : Nat) : Nat :=
  (img.pix ((y + b_y) * (img.width * 4) + (x + bx) * 4) % 256) +
  (img.pix ((y + b_y) * (img.width * 4) + (x + bx) * 4 + 1) % 256) * 0x100 +
  (img.pix ((y + b_y) * (img.width * 4) + (x + bx) * 4 + 2) % 256) * 0x10000 +
  (img.pix ((y + b_y) * (img.width * 4) + (x + bx) * 4 + 3) % 256) * 0x1000000

/-- `IsOpaque`: nonzero alpha byte. -/
def isOpaque (img : MetaImage) (x y bx b_y : Nat) : Bool :=
  decide (mGetPixel img x y bx b_y &&& 0xff000000 ≠ 0)

/-- `IsBreakable` (red): +R, low G, low B. -/
def isBreakable (img : MetaImage) (x y bx b_y : Nat) : Bool :=
  let pixel := mGetPixel img x y bx b_y
  decide (0x00007f < (pixel &&& 0x0000ff)) &&
  decide ((pixel &&& 0x00ff00) < 0x008000) &&
  decide ((pixel &&& 0xff0000) < 0x800000)

/-- `IsCollectible` (green): low R, +G, low B. -/
def isCollectible (img : MetaImage) (x y bx b_y : Nat) : Bool :=
  let pixel := mGetPixel img x y bx b_y
  decide ((pixel &&& 0x0000ff) < 0x000080) &&
  decide (0x007f00 < (pixel &&& 0x00ff00)) &&
  decide ((pixel &&& 0xff0000) < 0x800000)

/-- `IsStartingPosition` (blue): low R, low G, +B. -/
def isStartingPosition (img : MetaImage) (x y bx b_y : Nat) : Bool :=
  let pixel := mGetPixel img x y bx b_y
  decide ((pixel &&& 0x0000ff) < 0x000080) &&
  decide ((pixel &&& 0x00ff00) < 0x008000) &&
  decide (0x7f0000 < (pixel &&& 0xff0000))

/-- `IsThrowableTile` (yellow): +R, +G, low B. -/
def isThrowableTile (img : MetaImage) (x y bx b_y : Nat) : Bool :=
  let pixel := mGetPixel img x y bx b_y
  decide (0x00007f < (pixel &&& 0x0000ff)) &&
  decide (0x007f00 < (pixel &&& 0x00ff00)) &&
  decide ((pixel &&& 0xff0000) < 0x800000)

/-- `IsChainReactionTrigger` (cyan): low R, +G, +B. -/
def isChainReactionTrigger (img : MetaImage) (x y bx b_y : Nat) : Bool :=
  let pixel := mGetPixel img x y bx b_y
  decide ((pixel &&& 0x0000ff) < 0x000080) &&
  decide (0x007f00 < (pixel &&& 0x00ff00)) &&
  decide (0x7f0000 < (pixel &&& 0xff0000))

/-- `IsChainReactionEffect` (magenta): +R, low G, +B. -/
def isChainReactionEffect (img : MetaImage) (x y bx b_y : Nat) : Bool :=
  let pixel := mGetPixel img x y bx b_y
  decide (0x00007f < (pixel &&& 0x0000ff)) &&
  decide ((pixel &&& 0x00ff00) < 0x008000) &&
  decide (0x7f0000 < (pixel &&& 0xff0000))

/-- Inset margin of the four edge-midpoint samples. -/
def kMargin : Nat := 2

/-- Left sample point, x offset. -/
def kLPointX : Nat := kMargin

/-- Left sample point, y offset. -/
def kLPointY : Nat := kTileSize / 2

/-- Right sample point, x offset. -/
def kRPointX : Nat := kTileSize - 1 - kMargin

/-- Right sample point, y offset. -/
def kRPointY : Nat := kTileSize / 2

/-- Upper sample point, x offset. -/
def kUPointX : Nat := kTileSize / 2

/-- Upper sample point, y offset. -/
def kUPointY : Nat := kMargin

/-- Lower sample point, x offset. -/
def kDPointX : Nat := kTileSize / 2

/-- Lower sample point, y offset. -/
def kDPointY : Nat := kTileSize - 1 - kMargin

/-- Center sample point, x offset. -/
def kCPointX : Nat := kTileSize / 2

/-- Center sample point, y offset. -/
def kCPointY : Nat := kTileSize / 2

/-- Off-center sample point, x offset. -/
def kOPointX : Nat := kTileSize / 4 + 1

/-- Off-center sample point, y offset. -/
def kOPointY : Nat := kTileSize / 4 + 1

/-- The 4-bit edge-midpoint occupancy pattern of a cell
(`collision_bits`): up = 1, down = 2, left = 4, right = 8. -/
def collisionOccupancy (img : MetaImage) (x y : Nat) : Nat :=
  (if isOpaque img x y kUPointX kUPointY then 1 else 0) |||
  (if isOpaque img x y kDPointX kDPointY then 2 else 0) |||
  (if isOpaque img x y kLPointX kLPointY then 4 else 0) |||
  (if isOpaque img x y kRPointX kRPointY then 8 else 0)

/-- The `switch (collision_bits)` of `ProcessAnnotations`: the six
recognized patterns map to collision shapes, every other pattern leaves
`tile_bits` at its initial 0 (silently ignored). -/
def collisionBitsOf (occ : Nat) : Nat :=
  if occ = 0 then kCollisionNone
  else if occ = 15 then kCollisionSquare
  else if occ = 5 then kCollisionDownRight
  else if occ = 9 then kCollisionDownLeft
  else if occ = 6 then kCollisionUpRight
  else if occ = 10 then kCollisionUpLeft
  else 0

/-- The color-based tag classification chain of `ProcessAnnotations`,
ORing annotation bits into the running `tile_bits` value `tb` (the
throwable branch only records a spawn coordinate and sets no grid bits). -/
def applyTags (img : MetaImage) (x y : Nat) (tb : Nat) : Nat :=
  if isBreakable img x y kCPointX kCPointY then
    (if isBreakable img x y kOPointX kOPointY then tb ||| kGhostCollisionTile
     else tb ||| kBreakableTile)
  else if isCollectible img x y kCPointX kCPointY then
    (if isCollectible img x y kOPointX kOPointY then
      tb ||| (kCollectibleTileMask ||| kTerminalReaction)
     else tb ||| kCollectibleTileMask)
  else if isThrowableTile img x y kCPointX kCPointY then tb
  else if isChainReactionTrigger img x y kCPointX kCPointY then
    (if isChainReactionTrigger img x y kOPointX kOPointY then tb ||| kTerminalReaction
     else tb ||| kChainReaction)
  else if isChainReactionEffect img x y kCPointX kCPointY then
    (if isChainReactionEffect img x y kOPointX kOPointY then
      tb ||| (kTerminalReaction ||| kBreakableTile)
     else tb ||| (kChainReaction ||| kBreakableTile))
  else tb

/-- The `tile_bits` value stored by `ProcessAnnotations` for one cell:
collision classification followed by the tag chain. -/
def annotateTileBits (img : MetaImage) (x y : Nat) : Nat :=
  applyTags img x y (collisionBitsOf (collisionOccupancy img x y))

/-- A one-tile metadata image whose only opaque pixel is the upper edge
midpoint sample, giving the unrecognized occupancy pattern 1. -/
def c8ExampleImage : MetaImage :=
  ⟨kTileSize, kTileSize, fun n => if n = 323 then 0xff else 0⟩

/-! ## The metadata grid and its passes -/

/-- The metadata `TileMap` as a total function from (row, column) to the
cell bitmask.  The passes below only read and write in-bounds cells,
mirroring the `std::vector` indexing of the source. -/
abbrev Grid := Int → Int → Nat

/-- Write one cell of the grid. -/
def setCell (g : Grid) (y x : Int) (v : Nat) : Grid :=
  fun r c => if r = y ∧ c = x then v else g r c

/-- The (row, column) pairs visited by the double loops of the metadata
passes: row-major, top to bottom, left to right. -/
def coordList (w h : Int) : List (Int × Int) :=
  (List.range h.toNat).flatMap fun y =>
    (List.range w.toNat).map fun x => (Int.ofNat y, Int.ofNat x)

/-- Apply a per-cell transformation over a list of cells in order. -/
def applyCells (step : Grid → Int → Int → Grid) (l : List (Int × Int)) (g : Grid) : Grid :=
  l.foldl (fun g p => step g p.1 p.2) g

/-- One `printf` diagnostic of the validation passes, tagged by the
reporting check and the cell coordinate. -/
inductive Diag where
  | breakableNeedsCollision (y x : Int)
  | collectibleOverlap (y x : Int)
  | collectibleNearEdge (y x : Int)
  | collectibleNeedSquare (y x : Int)
  | collectibleNeedOneWall (y x : Int)
  | collectibleSurround (y x : Int)
  | tooManyCollectibles (y x : Int)
  | startNotMountable (y x : Int)
  | teleportNotMountable (y x : Int)
  | terminalNeedsChain (y x : Int)
  deriving DecidableEq

/-- Per-cell body of `RemoveGhosts`: a cell carrying the ghost flag has the
ghost flag and collision bits cleared (`*tile &= ~(kGhostCollisionTile |
kCollisionMask)`); other cells are untouched. -/
def removeGhostCell (g : Grid) (y x : Int) : Grid :=
  if g y x &&& kGhostCollisionTile ≠ 0 then
    setCell g y x (andNot (g y x) (kGhostCollisionTile ||| kCollisionMask))
  else g

/-- `RemoveGhosts`: the final ghost-cleanup pass; always returns true. -/
def removeGhosts (w h : Int) (g : Grid) : Grid × Bool :=
  (applyCells removeGhostCell (coordList w h) g, true)

/-- The neighbor test of `CheckTerminalReactions`: some orthogonal in-grid
neighbor carries the chain-reaction flag. -/
def adjacentToChainReaction (tiles : Grid) (w h y x : Int) : Bool :=
  (decide (0 < y) && decide (tiles (y - 1) x &&& kChainReaction ≠ 0)) ||
  (decide (y < h - 1) && decide (tiles (y + 1) x &&& kChainReaction ≠ 0)) ||
  (decide (0 < x) && decide (tiles y (x - 1) &&& kChainReaction ≠ 0)) ||
  (decide (x < w - 1) && decide (tiles y (x + 1) &&& kChainReaction ≠ 0))

/-- A terminal-reaction cell lacking any chain-reaction neighbor. -/
def terminalViolation (tiles : Grid) (w h y x : Int) : Bool :=
  decide (tiles y x &&& kTerminalReaction ≠ 0) &&
  !(adjacentToChainReaction tiles w h y x)

/-- Per-cell body of `CheckTerminalReactions`, accumulating diagnostics and
clearing the success flag on a violation. -/
def checkTerminalCell (tiles : Grid) (w h : Int) (st : List Diag × Bool) (y x : Int) :
    List Diag × Bool :=
  if tiles y x &&& kTerminalReaction ≠ 0 then
    if adjacentToChainReaction tiles w h y x then st
    else (st.1 ++ [Diag.terminalNeedsChain y x], false)
  else st

/-- `CheckTerminalReactions`: every terminal-reaction cell must have at
least one orthogonal chain-reaction neighbor. -/
def checkTerminalReactions (w h : Int) (tiles : Grid) : List Diag × Bool :=
  (coordList w h).foldl (fun st p => checkTerminalCell tiles w h st p.1 p.2) ([], true)

/-! ## Mount detection (`IsEmptyOrBreakable`, `AssignMountAttributes`,
`DetectMountPoints`) -/

/-- `IsEmptyOrBreakable`: inside the grid, and either carrying no collision
bits or carrying the breakable flag. -/
def isEmptyOrBreakable (tile_map : Grid) (grid_width grid_height x y : Int) : Bool :=
  if x < 0 ∨ x ≥ grid_width ∨ y < 0 ∨ y ≥ grid_height then false
  else
    decide (tile_map y x &&& kCollisionMask = kCollisionNone) ||
    decide (tile_map y x &&& kBreakableTile ≠ 0)

/-- The `NEIGHBOR_COLLISION` macro: collision bits of the cell at offset
(dx, dy) from the current cell, or -1 outside the grid. -/
def neighborCollision (output : Grid) (w h x y dx dy : Int) : Int :=
  if 0 ≤ x + dx ∧ x + dx < w ∧ 0 ≤ y + dy ∧ y + dy < h then
    ((output (y + dy) (x + dx) &&& kCollisionMask : Nat) : Int)
  else -1

/-- The `IS_EMPTY_OR_BREAKABLE` macro of `AssignMountAttributes`. -/
def aEOB (output : Grid) (w h x y dx dy : Int) : Bool :=
  isEmptyOrBreakable output w h (x + dx) (y + dy)

/-- The `HAS_ENOUGH_CLEARANCE` macro: the two cells stepping outward along
the normal from base offset (base_x, base_y) are empty-or-breakable. -/
def hasEnoughClearance (output : Grid) (w h x y ndx ndy base_x base_y : Int) : Bool :=
  aEOB output w h x y (base_x + ndx) (base_y + ndy) &&
  aEOB output w h x y (base_x + ndx * 2) (base_y + ndy * 2)

/-- The early-return test of `AssignMountAttributes`: two empty spaces in
front of the current tile along the normal. -/
def mountOutwardClear (output : Grid) (w h x y ndx ndy : Int) : Bool :=
  aEOB output w h x y ndx ndy && aEOB output w h x y (ndx * 2) (ndy * 2)

/-- The main condition of `AssignMountAttributes`: the pre and post lateral
neighbors (rotations of the normal, `pre = (-ndy, ndx)`,
`post = (ndy, -ndx)`) have the same collision bits as the current cell, and
each has its own two-cell outward clearance. -/
def mountLateralOk (output : Grid) (w h x y ndx ndy : Int) : Bool :=
  decide (neighborCollision output w h x y (-ndy) ndx =
    ((output y x &&& kCollisionMask : Nat) : Int)) &&
  decide (neighborCollision output w h x y ndy (-ndx) =
    ((output y x &&& kCollisionMask : Nat) : Int)) &&
  hasEnoughClearance output w h x y ndx ndy (-ndy) ndx &&
  hasEnoughClearance output w h x y ndx ndy ndy (-ndx)

/-- The extra corner checks of `AssignMountAttributes` for diagonal
normals: clearance behind the pre and post neighbors
(`kx = -ndx`, `ky = -ndy`). -/
def mountCornerOk (output : Grid) (w h x y ndx ndy : Int) : Bool :=
  hasEnoughClearance output w h x y ndx ndy (-ndy + -ndx) ndx &&
  hasEnoughClearance output w h x y ndx ndy (-ndy) (ndx + -ndy) &&
  hasEnoughClearance output w h x y ndx ndy (ndy + -ndx) (-ndx) &&
  hasEnoughClearance output w h x y ndx ndy ndy (-ndx + -ndy)

/-- The combined condition under which `AssignMountAttributes` ORs its mask
into the current cell: outward clearance, lateral neighbors of the same
collision type with their own clearance, and for diagonal normals the
corner clearance. -/
def assignCond (output : Grid) (ndx ndy w h x y : Int) : Bool :=
  mountOutwardClear output w h x y ndx ndy &&
  mountLateralOk output w h x y ndx ndy &&
  (decide (ndx = 0 ∨ ndy = 0) || mountCornerOk output w h x y ndx ndy)

/-- `AssignMountAttributes`, with the source's control flow: early return
without the outward clearance, then the lateral-neighbor condition, then
either the direct OR for axis normals or the corner checks for diagonal
normals. -/
def assignMountAttributes (mount_mask : Nat) (ndx ndy w h x y : Int) (output : Grid) : Grid :=
  if !mountOutwardClear output w h x y ndx ndy then output
  else if mountLateralOk output w h x y ndx ndy then
    if ndx = 0 ∨ ndy = 0 then setCell output y x (output y x ||| mount_mask)
    else if mountCornerOk output w h x y ndx ndy then
      setCell output y x (output y x ||| mount_mask)
    else output
  else output

/-- Per-cell body of `DetectMountPoints`: breakable cells are skipped, then
the collision shape selects which normals are evaluated (square tiles try
all four axis directions in up, down, left, right order; triangles try
their single diagonal).  Collision values 6 and 7 cannot be produced by
annotation (`assert(false)` in the source) and leave the cell unchanged. -/
def detectCell (w h : Int) (g : Grid) (y x : Int) : Grid :=
  if g y x &&& kBreakableTile ≠ 0 then g
  else if g y x &&& kCollisionMask = kCollisionNone then g
  else if g y x &&& kCollisionMask = kCollisionSquare then
    assignMountAttributes kMountRight 1 0 w h x y
      (assignMountAttributes kMountLeft (-1) 0 w h x y
        (assignMountAttributes kMountDown 0 1 w h x y
          (assignMountAttributes kMountUp 0 (-1) w h x y g)))
  else if g y x &&& kCollisionMask = kCollisionUpLeft then
    assignMountAttributes (kMountUp ||| kMountLeft) (-1) (-1) w h x y g
  else if g y x &&& kCollisionMask = kCollisionUpRight then
    assignMountAttributes (kMountUp ||| kMountRight) 1 (-1) w h x y g
  else if g y x &&& kCollisionMask = kCollisionDownLeft then
    assignMountAttributes (kMountDown ||| kMountLeft) (-1) 1 w h x y g
  else if g y x &&& kCollisionMask = kCollisionDownRight then
    assignMountAttributes (kMountDown ||| kMountRight) 1 1 w h x y g
  else g

/-- `DetectMountPoints`: one forward pass over the grid. -/
def detectMountPoints (w h : Int) (g : Grid) : Grid :=
  applyCells (detectCell w h) (coordList w h) g

/-- The union of mount masks the pass adds to one cell, computed against a
fixed grid (the pass's reads depend only on collision and breakable bits,
which it never writes, so the conditions may be evaluated on the original
grid). -/
def cellMountMask (g : Grid) (w h y x : Int) : Nat :=
  if g y x &&& kBreakableTile ≠ 0 then 0
  else if g y x &&& kCollisionMask = kCollisionNone then 0
  else if g y x &&& kCollisionMask = kCollisionSquare then
    (if assignCond g 0 (-1) w h x y then kMountUp else 0) |||
    (if assignCond g 0 1 w h x y then kMountDown else 0) |||
    (if assignCond g (-1) 0 w h x y then kMountLeft else 0) |||
    (if assignCond g 1 0 w h x y then kMountRight else 0)
  else if g y x &&& kCollisionMask = kCollisionUpLeft then
    (if assignCond g (-1) (-1) w h x y then kMountUp ||| kMountLeft else 0)
  else if g y x &&& kCollisionMask = kCollisionUpRight then
    (if assignCond g 1 (-1) w h x y then kMountUp ||| kMountRight else 0)
  else if g y x &&& kCollisionMask = kCollisionDownLeft then
    (if assignCond g (-1) 1 w h x y then kMountDown ||| kMountLeft else 0)
  else if g y x &&& kCollisionMask = kCollisionDownRight then
    (if assignCond g 1 1 w h x y then kMountDown ||| kMountRight else 0)
  else 0

/-- View of a cell restricted to the bits the mount pass reads: collision
shape and breakable flag. -/
def kMountReadMask : Nat := kCollisionMask ||| kBreakableTile

/-- A lone unbreakable square cell in an otherwise empty grid: both cells
above it are empty, yet its left and right neighbors are not squares. -/
def c1CexGrid : Grid := fun y x => if y = 2 ∧ x = 2 then kCollisionSquare else 0

/-- A vertical wall of squares at column 2, rows 1-3, in an empty grid. -/
def c1ExampleGrid : Grid := fun y x =>
  if x = 2 ∧ (y = 1 ∨ y = 2 ∨ y = 3) then kCollisionSquare else 0

/-! ## Obstacle adjustment (`AdjustObstacles`) -/

/-- The `IS_BREAKABLE` macro of `AdjustObstacles`.  There is no bounds
check: the source only evaluates neighbor macros for interior cells. -/
def adjIsBreakable (g : Grid) (y x dx dy : Int) : Bool :=
  decide (g (y + dy) (x + dx) &&& kBreakableTile ≠ 0)

/-- The `IS_EMPTY_OR_BREAKABLE` macro of `AdjustObstacles`. -/
def adjIsEmptyOrBreakable (g : Grid) (y x dx dy : Int) : Bool :=
  decide (g (y + dy) (x + dx) &&& kCollisionMask = kCollisionNone) ||
  adjIsBreakable g y x dx dy

/-- The `IS_UNBREAKABLE_SQUARE` macro of `AdjustObstacles`. -/
def adjIsUnbreakableSquare (g : Grid) (y x dx dy : Int) : Bool :=
  decide (g (y + dy) (x + dx) &&& (kBreakableTile ||| kCollisionMask) = kCollisionSquare)

/-- `empty_count`: how many of the four orthogonal neighbors are
empty-or-breakable, in the source's left, right, up, down order. -/
def adjEmptyCount (g : Grid) (y x : Int) : Nat :=
  (if adjIsEmptyOrBreakable g y x (-1) 0 then 1 else 0) +
  (if adjIsEmptyOrBreakable g y x 1 0 then 1 else 0) +
  (if adjIsEmptyOrBreakable g y x 0 (-1) then 1 else 0) +
  (if adjIsEmptyOrBreakable g y x 0 1 then 1 else 0)

/-- The direction selection of `AdjustObstacles` for a collectible cell:
`some` of the single direction bit when one of the two admissible neighbor
patterns applies (3 empty-or-breakable neighbors with the unbreakable
square probed in down, up, right, left order, i.e. direction priority
up, down, left, right; or 4 empty-or-breakable neighbors of which exactly
one is breakable), `none` when the neighborhood is invalid. -/
def collectibleResolve (g : Grid) (y x : Int) : Option Nat :=
  if adjEmptyCount g y x = 3 then
    if adjIsUnbreakableSquare g y x 0 1 then some kCollectibleTileUp
    else if adjIsUnbreakableSquare g y x 0 (-1) then some kCollectibleTileDown
    else if adjIsUnbreakableSquare g y x 1 0 then some kCollectibleTileLeft
    else if adjIsUnbreakableSquare g y x (-1) 0 then some kCollectibleTileRight
    else none
  else if adjEmptyCount g y x = 4 then
    if adjIsBreakable g y x 0 1 && !adjIsBreakable g y x 0 (-1) &&
       !adjIsBreakable g y x 1 0 && !adjIsBreakable g y x (-1) 0 then
      some kCollectibleTileUp
    else if !adjIsBreakable g y x 0 1 && adjIsBreakable g y x 0 (-1) &&
       !adjIsBreakable g y x 1 0 && !adjIsBreakable g y x (-1) 0 then
      some kCollectibleTileDown
    else if !adjIsBreakable g y x 0 1 && !adjIsBreakable g y x 0 (-1) &&
       adjIsBreakable g y x 1 0 && !adjIsBreakable g y x (-1) 0 then
      some kCollectibleTileLeft
    else if !adjIsBreakable g y x 0 1 && !adjIsBreakable g y x 0 (-1) &&
       !adjIsBreakable g y x 1 0 && adjIsBreakable g y x (-1) 0 then
      some kCollectibleTileRight
    else none
  else none

/-- Accumulator of `AdjustObstacles`: success flag, collectible count, the
grid under adjustment, and the diagnostics so far. -/
structure AdjSt where
  ok : Bool
  cnt : Nat
  g : Grid
  ds : List Diag

/-- The first check of the `AdjustObstacles` cell body: a breakable tile
without collision or reaction bits is reported (and the loop then falls
through to the collectible checks). -/
def adjustBreakable (st : AdjSt) (y x : Int) : AdjSt :=
  if st.g y x &&& kBreakableTile ≠ 0 ∧
     st.g y x &&& (kCollisionMask ||| kChainReaction ||| kTerminalReaction) = 0 then
    { st with ok := false, ds := st.ds ++ [Diag.breakableNeedsCollision y x] }
  else st

/-- The collectible-specific part of the `AdjustObstacles` cell body: the
overlap check, the border check, the direction resolution (rewriting the
cell to carry exactly the selected direction bit,
`*tile = (*tile & ~kCollectibleTileMask) | dir`), and the collectible cap
applied after a successful resolution. -/
def adjustCollectible (w h : Int) (st : AdjSt) (y x : Int) : AdjSt :=
  if andNot (st.g y x) (kCollectibleTileMask ||| kTerminalReaction) ≠ 0 then
    { st with ok := false, ds := st.ds ++ [Diag.collectibleOverlap y x] }
  else if x = 0 ∨ x = w - 1 ∨ y = 0 ∨ y = h - 1 then
    { st with ok := false, ds := st.ds ++ [Diag.collectibleNearEdge y x] }
  else
    match collectibleResolve st.g y x with
    | some dir =>
      if st.cnt + 1 > kMaxCollectibleObstacles then
        { ok := false, cnt := st.cnt + 1,
          g := setCell st.g y x (andNot (st.g y x) kCollectibleTileMask ||| dir),
          ds := st.ds ++ [Diag.tooManyCollectibles y x] }
      else
        { ok := st.ok, cnt := st.cnt + 1,
          g := setCell st.g y x (andNot (st.g y x) kCollectibleTileMask ||| dir),
          ds := st.ds }
    | none =>
      if adjEmptyCount st.g y x = 3 then
        { st with ok := false, ds := st.ds ++ [Diag.collectibleNeedSquare y x] }
      else if adjEmptyCount st.g y x = 4 then
        { st with ok := false, ds := st.ds ++ [Diag.collectibleNeedOneWall y x] }
      else
        { st with ok := false, ds := st.ds ++ [Diag.collectibleSurround y x] }

/-- Per-cell body of `AdjustObstacles`: the breakable check always runs
first; the remaining checks only apply to collectible cells. -/
def adjustCell (w h : Int) (st : AdjSt) (y x : Int) : AdjSt :=
  if st.g y x &&& kCollectibleTileMask = 0 then adjustBreakable st y x
  else adjustCollectible w h (adjustBreakable st y x) y x

/-- `AdjustObstacles`: one pass over the grid. -/
def adjustObstacles (w h : Int) (g : Grid) : AdjSt :=
  (coordList w h).foldl (fun st p => adjustCell w h st p.1 p.2) ⟨true, 0, g, []⟩

/-- The grid effect of one `AdjustObstacles` cell: only a collectible cell
that passes the overlap and border checks and resolves a direction is
rewritten. -/
def adjGridStep (w h : Int) (g : Grid) (y x : Int) : Grid :=
  if g y x &&& kCollectibleTileMask = 0 then g
  else if andNot (g y x) (kCollectibleTileMask ||| kTerminalReaction) ≠ 0 then g
  else if x = 0 ∨ x = w - 1 ∨ y = 0 ∨ y = h - 1 then g
  else
    match collectibleResolve g y x with
    | some dir => setCell g y x (andNot (g y x) kCollectibleTileMask ||| dir)
    | none => g

/-- `CheckStartingPoints`: every starting position's tile must carry mount
bits equal to right or left-and-right.  Tile coordinates are recovered from
the pixel coordinates with C truncating division (`Int.tdiv`). -/
def checkStartingPoints (start : List (Int × Int)) (tiles : Grid) : List Diag × Bool :=
  start.foldl (fun st p =>
    if tiles ((p.2 - (kTileSize : Int) / 2).tdiv (kTileSize : Int))
         (p.1.tdiv (kTileSize : Int)) &&& kMountMask ≠ kMountRight ∧
       tiles ((p.2 - (kTileSize : Int) / 2).tdiv (kTileSize : Int))
         (p.1.tdiv (kTileSize : Int)) &&& kMountMask ≠ (kMountLeft ||| kMountRight) then
      (st.1 ++ [Diag.startNotMountable ((p.2 - (kTileSize : Int) / 2).tdiv (kTileSize : Int))
        (p.1.tdiv (kTileSize : Int))], false)
    else st) ([], true)

/-- `CheckTeleportPoints`: every teleport station's tile must carry mount
bits equal to up or up-and-down. -/
def checkTeleportPoints (start : List (Int × Int)) (tiles : Grid) : List Diag × Bool :=
  start.foldl (fun st p =>
    if tiles (p.2.tdiv (kTileSize : Int))
         ((p.1 - (kTileSize : Int) / 2).tdiv (kTileSize : Int)) &&& kMountMask ≠ kMountUp ∧
       tiles (p.2.tdiv (kTileSize : Int))
         ((p.1 - (kTileSize : Int) / 2).tdiv (kTileSize : Int)) &&& kMountMask ≠
         (kMountUp ||| kMountDown) then
      (st.1 ++ [Diag.teleportNotMountable (p.2.tdiv (kTileSize : Int))
        ((p.1 - (kTileSize : Int) / 2).tdiv (kTileSize : Int))], false)
    else st) ([], true)

/-- The validation chain of `ProcessMetadataImage` after annotation and
mount detection.  C++ `&&` evaluates left to right and short-circuits, so
a failing stage suppresses every later stage, including the grid mutation
of `RemoveGhosts`.  Returns the accumulated diagnostics of the stages that
ran, the overall flag, and the resulting grid. -/
def processMetadataValidate (w h : Int) (g : Grid) (start teleport : List (Int × Int)) :
    List Diag × Bool × Grid :=
  let a := adjustObstacles w h g
  if a.ok then
    let s := checkStartingPoints start a.g
    if s.2 then
      let t := checkTeleportPoints teleport a.g
      if t.2 then
        let c := checkTerminalReactions w h a.g
        if c.2 then
          let r := removeGhosts w h a.g
          (a.ds ++ s.1 ++ t.1 ++ c.1, r.2, r.1)
        else (a.ds ++ s.1 ++ t.1 ++ c.1, false, a.g)
      else (a.ds ++ s.1 ++ t.1, false, a.g)
    else (a.ds ++ s.1, false, a.g)
  else (a.ds, false, a.g)

/-- The claim's admissible pattern (i): exactly 3 of the 4 orthogonal
neighbors empty-or-breakable, and an unbreakable square among them. -/
def specPatternI (g : Grid) (y x : Int) : Prop :=
  adjEmptyCount g y x = 3 ∧
  (adjIsUnbreakableSquare g y x 0 1 = true ∨ adjIsUnbreakableSquare g y x 0 (-1) = true ∨
   adjIsUnbreakableSquare g y x 1 0 = true ∨ adjIsUnbreakableSquare g y x (-1) 0 = true)

/-- The claim's admissible pattern (ii): all 4 orthogonal neighbors
empty-or-breakable and exactly one of them breakable. -/
def specPatternII (g : Grid) (y x : Int) : Prop :=
  adjEmptyCount g y x = 4 ∧
  (if adjIsBreakable g y x 0 1 then 1 else 0) +
    (if adjIsBreakable g y x 0 (-1) then 1 else 0) +
    (if adjIsBreakable g y x 1 0 then 1 else 0) +
    (if adjIsBreakable g y x (-1) 0 then 1 else 0) = 1

/-- A collectible cell on the border plus a terminal-reaction cell without
any chain-reaction neighbor: violations in two different checks. -/
def c2ExampleGrid : Grid := fun y x =>
  if y = 0 ∧ x = 0 then kCollectibleTileMask
  else if y = 2 ∧ x = 2 then kTerminalReaction
  else 0

/-- A centered collectible with an unbreakable square right below it and
empty cells elsewhere. -/
def c4ExampleGrid : Grid := fun y x =>
  if y = 1 ∧ x = 1 then kCollectibleTileMask
  else if y = 2 ∧ x = 1 then kCollisionSquare
  else 0

/-- Grid with a single ghost-tagged square cell at the origin. -/
def c9ExampleGrid : Grid := fun y x =>
  if y = 0 ∧ x = 0 then
    kGhostCollisionTile ||| kCollisionSquare ||| kMountUp ||| kChainReaction
  else kCollisionSquare

/-- Grid with a single terminal-reaction cell and no chain-reaction cell. -/
def c5ExampleGrid : Grid := fun y x =>
  if y = 1 ∧ x = 1 then kTerminalReaction else 0

/-! ## Helper lemmas for the serializer -/

theorem unpackTable_nil : unpackTable [] = [] := rfl

theorem unpackTable_cons (v : Int) (l : List Int) :
    unpackTable (v :: l) = unpackValue v ++ unpackTable l := by
  simp [unpackTable]

theorem unpackTable_append (a b : List Int) :
    unpackTable (a ++ b) = unpackTable a ++ unpackTable b := by
  simp [unpackTable]

theorem unpackValue_single (p : Int) (h1 : 1 ≤ p) (h2 : p ≤ (kMaxTileCount : Int)) :
    unpackValue p = [p] := by
  unfold unpackValue
  rw [if_neg (by omega), if_neg (by unfold kMaxTileCount at h2; push_cast at h2; omega)]

theorem unpackValue_run (b : Int) (h : 0 < b) :
    unpackValue (-b) = List.replicate b.toNat kBlankTile := by
  unfold unpackValue
  rw [if_pos (by omega)]
  congr 1
  omega

theorem unpackValue_pair (p c : Int) (hp1 : 1 ≤ p) (hp2 : p ≤ (kMaxTileCount : Int))
    (hc1 : 1 ≤ c) (hc2 : c ≤ (kMaxTileCount : Int)) :
    unpackValue (p * 65536 + c) = [p, c] := by
  unfold kMaxTileCount at hp2 hc2
  push_cast at hp2 hc2
  unfold unpackValue
  rw [if_neg (by omega), if_pos (by omega)]
  have hdiv : (p * 65536 + c) / 65536 = p := by omega
  have hmod : (p * 65536 + c) % 65536 = c := by omega
  rw [hdiv, hmod]

theorem unpackTable_pFlush (p : Int) (hp : p = 0 ∨ (1 ≤ p ∧ p ≤ (kMaxTileCount : Int))) :
    unpackTable (pFlush p) = pFlush p := by
  rcases hp with h | ⟨h1, h2⟩
  · simp [pFlush, h, unpackTable]
  · have : pFlush p = [p] := by unfold pFlush; rw [if_neg (by omega)]
    rw [this, unpackTable_cons, unpackValue_single p h1 h2, unpackTable_nil, List.append_nil]

theorem packGo_roundtrip (cells : List Int) : ∀ b p : Int, 0 ≤ b →
    (p = 0 ∨ (1 ≤ p ∧ p ≤ (kMaxTileCount : Int))) →
    (∀ c ∈ cells, validCell c) →
    unpackTable (packGo cells b p) =
      pFlush p ++ List.replicate b.toNat kBlankTile ++ cells := by
  induction cells with
  | nil =>
    intro b p hb hp _
    unfold packGo
    by_cases h : 0 < b
    · rw [if_pos h, unpackTable_append, unpackTable_pFlush p hp, unpackTable_cons,
        unpackTable_nil, unpackValue_run b h]
      simp
    · rw [if_neg h, unpackTable_pFlush p hp]
      have : b = 0 := by omega
      simp [this]
  | cons c rest ih =>
    intro b p hb hp hc
    have hcrest : ∀ x ∈ rest, validCell x := fun x hx => hc x (List.mem_cons_of_mem _ hx)
    have hchead : validCell c := hc c (List.mem_cons_self c rest)
    unfold packGo
    by_cases hblank : c = kBlankTile
    · rw [if_pos hblank]
      rw [ih (b + 1) p (by omega) hp hcrest]
      have : List.replicate (b + 1).toNat kBlankTile =
          List.replicate b.toNat kBlankTile ++ [kBlankTile] := by
        have : (b + 1).toNat = b.toNat + 1 := by omega
        rw [this, List.replicate_succ']
      rw [this, hblank]
      simp
    · have hcr : 1 ≤ c ∧ c ≤ (kMaxTileCount : Int) := by
        rcases hchead with h | h
        · exact absurd h hblank
        · exact h
      rw [if_neg hblank]
      by_cases hbpos : 0 < b
      · rw [if_pos hbpos, unpackTable_append, unpackTable_pFlush p hp, unpackTable_cons,
          unpackValue_run b hbpos, ih 0 c (by omega) (Or.inr hcr) hcrest]
        have : pFlush c = [c] := by unfold pFlush; rw [if_neg (by omega)]
        simp [this]
      · have hb0 : b = 0 := by omega
        rw [if_neg hbpos]
        by_cases hp0 : p = 0
        · rw [if_pos hp0, ih 0 c (by omega) (Or.inr hcr) hcrest]
          have hcne : ¬c = 0 := by omega
          simp [pFlush, hp0, hb0, hcne]
        · rw [if_neg hp0]
          have hpr : 1 ≤ p ∧ p ≤ (kMaxTileCount : Int) := by
            rcases hp with h | h
            · exact absurd h hp0
            · exact h
          rw [unpackTable_cons, unpackValue_pair p c hpr.1 hpr.2 hcr.1 hcr.2,
            ih 0 0 (by omega) (Or.inl rfl) hcrest]
          simp [pFlush, hp0, hb0]

theorem indexOfLastRowGo_blank (tiles : List (List Int))
    (hblank : ∀ row ∈ tiles, ∀ c ∈ row, c = kBlankTile) :
    ∀ r, indexOfLastRowGo tiles r = 0 := by
  intro r
  induction r with
  | zero => rfl
  | succ n ih =>
    unfold indexOfLastRowGo
    rw [if_neg, ih]
    intro hany
    rcases List.any_eq_true.mp hany with ⟨c, hcmem, hcne⟩
    have hrow : tiles.getD (n + 1) [] ∈ tiles ∨ tiles.getD (n + 1) [] = [] := by
      by_cases hlt : n + 1 < tiles.length
      · left
        rw [List.getD_eq_getElem _ _ hlt]
        exact List.getElem_mem hlt
      · right
        unfold List.getD
        rw [List.get?_eq_none.mpr (by omega)]
        rfl
    rcases hrow with h | h
    · exact (bne_iff_ne.mp hcne) (hblank _ h c hcmem)
    · rw [h] at hcmem
      exact absurd hcmem (List.not_mem_nil c)

theorem packGo_blank (l : List Int) :
    (∀ c ∈ l, c = kBlankTile) → ∀ b : Int, 0 ≤ b → 0 < b + l.length →
    packGo l b 0 = [-(b + l.length)] := by
  induction l with
  | nil =>
    intro _ b hb hpos
    unfold packGo
    rw [if_pos (by simpa using hpos)]
    simp [pFlush]
  | cons c rest ih =>
    intro hl b hb hpos
    have hc : c = kBlankTile := hl c (List.mem_cons_self c rest)
    simp only [List.length_cons] at hpos
    unfold packGo
    rw [if_pos hc, ih (fun x hx => hl x (List.mem_cons_of_mem _ hx)) (b + 1) (by omega)
      (by push_cast at hpos; omega)]
    congr 1
    simp only [List.length_cons]
    push_cast
    omega

/-! ## Claim C6 -/

/-- C6: decoding the packed table emitted by the run/pair packer with the
symmetric unpacker yields exactly the original cell sequence up to the
serialized scan limit, for every layer whose cells are the blank sentinel
or 1-based tile indices within the 16-bit-safe tile limit. -/
theorem packRoundTrip_c6 (tiles : List (List Int))
    (hcells : ∀ row ∈ tiles, ∀ c ∈ row, validCell c) :
    unpackTable (writeTileTableBody tiles) =
      (tiles.take (indexOfLastRow tiles + 1)).flatten := by
  unfold writeTileTableBody
  rw [packGo_roundtrip _ 0 0 (by omega) (Or.inl rfl)]
  · simp [pFlush]
  · intro c hcmem
    rcases List.mem_flatten.mp hcmem with ⟨row, hrow, hcr⟩
    exact hcells row (List.take_subset _ _ hrow) c hcr

/-- C6 witness: the round trip on the spec's example sequence of indices
3, 5, 7 followed by 40 blank cells. -/
theorem packRoundTrip_c6_witness :
    unpackTable (writeTileTableBody c6ExampleTiles) =
      (c6ExampleTiles.take (indexOfLastRow c6ExampleTiles + 1)).flatten :=
  packRoundTrip_c6 c6ExampleTiles (by decide)

/-! ## Claim C10 -/

/-- C10: on an all-blank layer the trailing-blank-row trimming never removes
the first row: `IndexOfLastRow` returns 0, the declared cell count equals the
grid width, and the body is a single blank run of that length; and in
general the declared cell count covers at least the first row. -/
theorem allBlankLayer_c10 (tiles : List (List Int)) (w : Nat)
    (hne : tiles ≠ []) (hw : (tiles.headD []).length = w) (hw1 : 1 ≤ w)
    (hblank : ∀ row ∈ tiles, ∀ c ∈ row, c = kBlankTile) :
    indexOfLastRow tiles = 0 ∧
    writeTileTableCount tiles = (w : Int) ∧
    writeTileTableBody tiles = [-(w : Int)] ∧
    ∀ ts : List (List Int), ((ts.headD []).length : Int) ≤ writeTileTableCount ts := by
  have hidx : indexOfLastRow tiles = 0 := indexOfLastRowGo_blank tiles hblank _
  refine ⟨hidx, ?_, ?_, ?_⟩
  · unfold writeTileTableCount
    rw [hidx, hw]
    push_cast
    ring
  · unfold writeTileTableBody
    rw [hidx]
    rcases tiles with _ | ⟨r, rest⟩
    · exact absurd rfl hne
    · have hflat : ((r :: rest).take (0 + 1)).flatten = r := by simp
      rw [hflat]
      have hrw : r.length = w := by simpa using hw
      rw [packGo_blank r (fun c hc => hblank r (List.mem_cons_self r rest) c hc) 0 (by omega)
        (by rw [hrw]; omega)]
      rw [hrw]
      norm_num
  · intro ts
    unfold writeTileTableCount
    have : (ts.headD []).length ≤ (indexOfLastRow ts + 1) * (ts.headD []).length :=
      Nat.le_mul_of_pos_left _ (by omega)
    exact_mod_cast this

/-- C10 witness: the all-blank two-by-two layer. -/
theorem allBlankLayer_c10_witness :
    indexOfLastRow c10ExampleTiles = 0 ∧
    writeTileTableCount c10ExampleTiles = (2 : Int) ∧
    writeTileTableBody c10ExampleTiles = [(-2 : Int)] := by
  have h := allBlankLayer_c10 c10ExampleTiles 2 (by decide) (by decide) (by decide) (by decide)
  exact ⟨h.1, h.2.1, h.2.2.1⟩

/-! ## Helper lemmas for the tile indexer -/

theorem tableLookup_append (t : Table) (e : TilePixels × Nat) (c : TilePixels) :
    tableLookup (t ++ [e]) c =
      match tableLookup t c with
      | some i => some i
      | none => if e.1 = c then some e.2 else none := by
  induction t with
  | nil => simp [tableLookup]
  | cons hd tl ih =>
    by_cases h : hd.1 = c
    · simp [tableLookup, h]
    · simpa [tableLookup, h] using ih

theorem tableLookup_eq_none_iff (t : Table) (c : TilePixels) :
    tableLookup t c = none ↔ c ∉ t.map Prod.fst := by
  induction t with
  | nil => simp [tableLookup]
  | cons hd tl ih =>
    by_cases h : hd.1 = c
    · simp [tableLookup, h]
    · simp [tableLookup, h, ih, Ne.symm h]

theorem tableLE_refl (t : Table) : tableLE t t := fun _ _ h => h

theorem tableLE_trans {t u v : Table} (h1 : tableLE t u) (h2 : tableLE u v) :
    tableLE t v := fun c i h => h2 c i (h1 c i h)

theorem tableInsert_le (t : Table) (c : TilePixels) : tableLE t (tableInsert t c).1 := by
  unfold tableInsert
  cases h : tableLookup t c with
  | some i => exact tableLE_refl t
  | none =>
    intro c' i' h'
    simp only
    rw [tableLookup_append, h']

theorem tableInsert_lookup (t : Table) (c : TilePixels) :
    tableLookup (tableInsert t c).1 c = some (tableInsert t c).2 := by
  unfold tableInsert
  cases h : tableLookup t c with
  | some i => exact h
  | none =>
    simp only
    rw [tableLookup_append, h]
    simp

theorem insertAll_le (t : Table) (l : List TilePixels) : tableLE t (insertAll t l) := by
  induction l generalizing t with
  | nil => exact tableLE_refl t
  | cons c rest ih =>
    exact tableLE_trans (tableInsert_le t c) (ih (tableInsert t c).1)

theorem insertAll_append (t : Table) (a b : List TilePixels) :
    insertAll t (a ++ b) = insertAll (insertAll t a) b := by
  induction a generalizing t with
  | nil => rfl
  | cons c rest ih => simp [insertAll, ih]

theorem insertAll_keys (l : List TilePixels) :
    ∀ t : Table, (insertAll t l).map Prod.fst = firstSeen l (t.map Prod.fst) := by
  induction l with
  | nil => intro t; rfl
  | cons c rest ih =>
    intro t
    unfold insertAll firstSeen tableInsert
    by_cases h : c ∈ t.map Prod.fst
    · have : ∃ i, tableLookup t c = some i := by
        cases hl : tableLookup t c with
        | some i => exact ⟨i, rfl⟩
        | none => exact absurd ((tableLookup_eq_none_iff t c).mp hl) (by simpa using h)
      rcases this with ⟨i, hi⟩
      rw [hi, if_pos h]
      exact ih t
    · rw [(tableLookup_eq_none_iff t c).mpr h, if_neg h]
      rw [ih (t ++ [(c, t.length)])]
      simp

theorem insertAll_snd_range (l : List TilePixels) :
    ∀ t : Table, t.map Prod.snd = List.range t.length →
      (insertAll t l).map Prod.snd = List.range (insertAll t l).length := by
  induction l with
  | nil => intro t h; exact h
  | cons c rest ih =>
    intro t h
    unfold insertAll tableInsert
    cases hl : tableLookup t c with
    | some i => exact ih t h
    | none =>
      apply ih
      simp [h, List.range_succ]

theorem insertAll_keys_nodup (l : List TilePixels) :
    ∀ t : Table, (t.map Prod.fst).Nodup → ((insertAll t l).map Prod.fst).Nodup := by
  induction l with
  | nil => intro t h; exact h
  | cons c rest ih =>
    intro t h
    unfold insertAll tableInsert
    cases hl : tableLookup t c with
    | some i => exact ih t h
    | none =>
      apply ih
      have hnm : c ∉ t.map Prod.fst := (tableLookup_eq_none_iff t c).mp hl
      simp [List.nodup_append, h, hnm]

theorem processCells_table (img : ArtImage) (cy : Nat) (xs : List Nat) :
    ∀ t : Table, (processCells img cy t xs).1 = insertAll t (cellContents img cy xs) := by
  induction xs with
  | nil => intro t; rfl
  | cons cx rest ih =>
    intro t
    unfold processCells cellContents processCell
    by_cases h : isBlank (tileContent img (kTileSize * cx) (kTileSize * cy)) = true
    · simp only [h, if_pos]
      simpa [insertAll] using ih t
    · simp only [eq_false_of_ne_true h]
      rw [if_neg (by simp_all)]
      simpa [insertAll] using ih (tableInsert t (tileContent img (kTileSize * cx) (kTileSize * cy))).1

theorem processRows_table (img : ArtImage) (cys : List Nat) :
    ∀ t : Table, (processRows img t cys).1 = insertAll t (rowContents img cys) := by
  induction cys with
  | nil => intro t; rfl
  | cons cy rest ih =>
    intro t
    unfold processRows rowContents
    rw [insertAll_append, ih, processCells_table]

theorem processImages_table (imgs : List ArtImage) :
    ∀ t : Table, (processImages t imgs).1 = insertAll t (scanContents imgs) := by
  induction imgs with
  | nil => intro t; rfl
  | cons img rest ih =>
    intro t
    unfold processImages scanContents imageContents
    rw [insertAll_append, ih, processImage, processRows_table]

theorem processCells_le (img : ArtImage) (cy : Nat) (xs : List Nat) (t : Table) :
    tableLE t (processCells img cy t xs).1 := by
  rw [processCells_table]
  exact insertAll_le t _

theorem processRows_le (img : ArtImage) (cys : List Nat) (t : Table) :
    tableLE t (processRows img t cys).1 := by
  rw [processRows_table]
  exact insertAll_le t _

theorem processImages_le (imgs : List ArtImage) (t : Table) :
    tableLE t (processImages t imgs).1 := by
  rw [processImages_table]
  exact insertAll_le t _

theorem processCells_values (img : ArtImage) (cy : Nat) (xs : List Nat) :
    ∀ (t : Table) (T : Table), tableLE (processCells img cy t xs).1 T →
      (processCells img cy t xs).2 = xs.map fun cx => cellExpr T img cy cx := by
  induction xs with
  | nil => intro t T _; rfl
  | cons cx rest ih =>
    intro t T hT
    have hT' : tableLE (processCells img cy
        (processCell img t (kTileSize * cx) (kTileSize * cy)).1 rest).1 T := hT
    unfold processCells
    simp only [List.map_cons, List.cons.injEq]
    by_cases h : isBlank (tileContent img (kTileSize * cx) (kTileSize * cy)) = true
    · constructor
      · simp [processCell, cellExpr, h]
      · rw [ih _ T (by simpa [processCell, h] using hT')]
    · have hfalse : isBlank (tileContent img (kTileSize * cx) (kTileSize * cy)) = false :=
        eq_false_of_ne_true h
      have hlook : tableLookup T (tileContent img (kTileSize * cx) (kTileSize * cy)) =
          some (tableInsert t (tileContent img (kTileSize * cx) (kTileSize * cy))).2 := by
        apply hT'
        apply processCells_le img cy rest (processCell img t (kTileSize * cx) (kTileSize * cy)).1
        simp only [processCell, hfalse]
        rw [if_neg (by simp)]
        exact tableInsert_lookup t _
      constructor
      · show (processCell img t (kTileSize * cx) (kTileSize * cy)).2 = cellExpr T img cy cx
        unfold processCell cellExpr
        simp only [hfalse, Bool.false_eq_true, if_false]
        rw [hlook]
        rfl
      · rw [ih _ T (by simpa [processCell, hfalse] using hT')]

theorem processRows_values (img : ArtImage) (cys : List Nat) :
    ∀ (t : Table) (T : Table), tableLE (processRows img t cys).1 T →
      (processRows img t cys).2 =
        cys.map fun cy => (List.range (gridWidth img)).map fun cx => cellExpr T img cy cx := by
  induction cys with
  | nil => intro t T _; rfl
  | cons cy rest ih =>
    intro t T hT
    have hT' : tableLE (processRows img
        (processCells img cy t (List.range (gridWidth img))).1 rest).1 T := hT
    unfold processRows
    simp only [List.map_cons, List.cons.injEq]
    constructor
    · exact processCells_values img cy _ t T
        (tableLE_trans (processRows_le img rest _) hT')
    · exact ih _ T hT'

theorem processImages_values (imgs : List ArtImage) :
    ∀ (t : Table) (T : Table), tableLE (processImages t imgs).1 T →
      (processImages t imgs).2 = imgs.map fun img =>
        (List.range (gridHeight img)).map fun cy =>
          (List.range (gridWidth img)).map fun cx => cellExpr T img cy cx := by
  induction imgs with
  | nil => intro t T _; rfl
  | cons img rest ih =>
    intro t T hT
    have hT' : tableLE (processImages (processImage img t).1 rest).1 T := hT
    unfold processImages
    simp only [List.map_cons, List.cons.injEq]
    constructor
    · exact processRows_values img _ t T
        (tableLE_trans (processImages_le rest _) hT')
    · exact ih _ T hT'

theorem cellContents_nonblank (img : ArtImage) (cy : Nat) (xs : List Nat) :
    ∀ c ∈ cellContents img cy xs, isBlank c = false := by
  induction xs with
  | nil => intro c hc; exact absurd hc (List.not_mem_nil c)
  | cons cx rest ih =>
    intro c hc
    unfold cellContents at hc
    by_cases h : isBlank (tileContent img (kTileSize * cx) (kTileSize * cy)) = true
    · rw [if_pos h] at hc
      exact ih c hc
    · rw [if_neg h] at hc
      rcases List.mem_cons.mp hc with h' | h'
      · rw [h']
        exact eq_false_of_ne_true h
      · exact ih c h'

theorem rowContents_nonblank (img : ArtImage) (cys : List Nat) :
    ∀ c ∈ rowContents img cys, isBlank c = false := by
  induction cys with
  | nil => intro c hc; exact absurd hc (List.not_mem_nil c)
  | cons cy rest ih =>
    intro c hc
    rcases List.mem_append.mp hc with h | h
    · exact cellContents_nonblank img cy _ c h
    · exact ih c h

theorem scanContents_nonblank (imgs : List ArtImage) :
    ∀ c ∈ scanContents imgs, isBlank c = false := by
  induction imgs with
  | nil => intro c hc; exact absurd hc (List.not_mem_nil c)
  | cons img rest ih =>
    intro c hc
    rcases List.mem_append.mp hc with h | h
    · exact rowContents_nonblank img _ c h
    · exact ih c h

theorem firstSeen_mem (l : List TilePixels) :
    ∀ acc c, c ∈ firstSeen l acc → c ∈ l ∨ c ∈ acc := by
  induction l with
  | nil => intro acc c hc; exact Or.inr hc
  | cons x rest ih =>
    intro acc c hc
    unfold firstSeen at hc
    by_cases h : x ∈ acc
    · rw [if_pos h] at hc
      rcases ih acc c hc with h' | h'
      · exact Or.inl (List.mem_cons_of_mem x h')
      · exact Or.inr h'
    · rw [if_neg h] at hc
      rcases ih (acc ++ [x]) c hc with h' | h'
      · exact Or.inl (List.mem_cons_of_mem x h')
      · rcases List.mem_append.mp h' with h'' | h''
        · exact Or.inr h''
        · exact Or.inl (by simp_all)

/-! ## Claim C3 -/

/-- C3: over any sequence of art-layer images processed in order against the
shared dedup table, the assigned indices are exactly 0..n-1 in first-seen
raster order (index list equals `List.range`, key list equals the
first-seen subsequence of the scan order, keys are pairwise distinct), and
every output grid cell equals the blank sentinel for a blank tile and its
tile's assigned index plus 1 otherwise.  Because each cell value is a
function of the final table and the cell's own pixel content, byte-identical
non-blank tiles receive identical indices regardless of source image or
position, and distinct contents (distinct keys) receive distinct indices. -/
theorem dedupIndexing_c3 (imgs : List ArtImage) :
    ((processImages emptyTable imgs).1.map Prod.snd =
      List.range (processImages emptyTable imgs).1.length) ∧
    ((processImages emptyTable imgs).1.map Prod.fst = firstSeen (scanContents imgs) []) ∧
    ((processImages emptyTable imgs).1.map Prod.fst).Nodup ∧
    ((processImages emptyTable imgs).2 = imgs.map fun img =>
      (List.range (gridHeight img)).map fun cy =>
        (List.range (gridWidth img)).map fun cx =>
          cellExpr (processImages emptyTable imgs).1 img cy cx) := by
  refine ⟨?_, ?_, ?_, ?_⟩
  · rw [processImages_table]
    exact insertAll_snd_range _ emptyTable rfl
  · rw [processImages_table]
    exact insertAll_keys _ emptyTable
  · rw [processImages_table]
    exact insertAll_keys_nodup _ emptyTable (by simp [emptyTable])
  · exact processImages_values imgs emptyTable _ (tableLE_refl _)

/-! ## Claim C7 -/

/-- C7: a fully transparent tile is written out as the blank sentinel and is
never interned: processing such a cell returns the dedup table unchanged,
and consequently no key of the final table is ever blank. -/
theorem blankNotInterned_c7 :
    (∀ (img : ArtImage) (t : Table) (x y : Nat),
      isBlank (tileContent img x y) = true → processCell img t x y = (t, kBlankTile)) ∧
    (∀ (imgs : List ArtImage) (c : TilePixels),
      c ∈ (processImages emptyTable imgs).1.map Prod.fst → isBlank c = false) := by
  constructor
  · intro img t x y h
    unfold processCell
    rw [if_pos h]
  · intro imgs c hc
    rw [processImages_table] at hc
    rw [insertAll_keys] at hc
    rcases firstSeen_mem _ _ c hc with h | h
    · exact scanContents_nonblank imgs c h
    · exact absurd h (by simp [emptyTable])

/-- C7 witness: processing the fully transparent one-tile image leaves the
empty table empty and records the blank sentinel. -/
theorem blankNotInterned_c7_witness :
    processCell blankArtImage emptyTable 0 0 = (emptyTable, kBlankTile) :=
  blankNotInterned_c7.1 blankArtImage emptyTable 0 0 (by decide)

/-! ## Bit-level helper lemmas -/

theorem andNot_testBit (t m i : Nat) :
    (andNot t m).testBit i = (t.testBit i && !(m.testBit i)) := by
  unfold andNot
  rw [Nat.testBit_xor, Nat.testBit_land]
  cases t.testBit i <;> cases m.testBit i <;> rfl

theorem and_eq_zero_testBit {m m' : Nat} (h : m &&& m' = 0) (i : Nat)
    (hm' : m'.testBit i = true) : m.testBit i = false := by
  have hb := congrArg (fun n => n.testBit i) h
  simp only [Nat.testBit_land, Nat.zero_testBit, hm', Bool.and_true] at hb
  exact hb

theorem andNot_and_disjoint (t m m' : Nat) (h : m &&& m' = 0) :
    andNot t m &&& m' = t &&& m' := by
  apply Nat.eq_of_testBit_eq
  intro i
  rw [Nat.testBit_land, Nat.testBit_land, andNot_testBit]
  by_cases hm : m'.testBit i
  · rw [and_eq_zero_testBit h i hm]
    simp
  · simp [Bool.eq_false_iff.mpr hm]

/-! ## Grid pass machinery -/

theorem mem_coordList (w h y x : Int) :
    (y, x) ∈ coordList w h ↔ 0 ≤ y ∧ y < h ∧ 0 ≤ x ∧ x < w := by
  unfold coordList
  rw [List.mem_flatMap]
  constructor
  · rintro ⟨a, ha, hmem⟩
    rw [List.mem_map] at hmem
    rcases hmem with ⟨b, hb, heq⟩
    rw [List.mem_range] at ha hb
    have h1 := congrArg Prod.fst heq
    have h2 := congrArg Prod.snd heq
    simp only [Int.ofNat_eq_coe] at h1 h2
    omega
  · rintro ⟨hy0, hyh, hx0, hxw⟩
    refine ⟨y.toNat, ?_, ?_⟩
    · rw [List.mem_range]
      omega
    · rw [List.mem_map]
      refine ⟨x.toNat, ?_, ?_⟩
      · rw [List.mem_range]
        omega
      · rw [Prod.mk.injEq]
        constructor <;> simp only [Int.ofNat_eq_coe] <;> omega

theorem coordList_nodup (w h : Int) : (coordList w h).Nodup := by
  unfold coordList
  apply List.nodup_flatMap.mpr
  constructor
  · intro a _
    apply List.Nodup.map
    · intro b1 b2 hb
      have hsnd := congrArg Prod.snd hb
      simpa using hsnd
    · exact List.nodup_range _
  · have hlt : (List.range h.toNat).Pairwise (· < ·) := List.pairwise_lt_range _
    refine hlt.imp ?_
    intro a1 a2 hlt12 p hp1 hp2
    simp only [List.mem_map] at hp1 hp2
    rcases hp1 with ⟨b1, _, hb1⟩
    rcases hp2 with ⟨b2, _, hb2⟩
    have h1 := congrArg Prod.fst hb1
    have h2 := congrArg Prod.fst hb2
    simp only [Int.ofNat_eq_coe] at h1 h2
    omega

theorem applyCells_cons (step : Grid → Int → Int → Grid) (p : Int × Int)
    (rest : List (Int × Int)) (g : Grid) :
    applyCells step (p :: rest) g = applyCells step rest (step g p.1 p.2) := rfl

theorem applyCells_view (step : Grid → Int → Int → Grid) (mask : Nat)
    (hview : ∀ g y x r c, step g y x r c &&& mask = g r c &&& mask)
    (l : List (Int × Int)) :
    ∀ (g : Grid) (a b : Int), applyCells step l g a b &&& mask = g a b &&& mask := by
  induction l with
  | nil => intro g a b; rfl
  | cons p rest ih =>
    intro g a b
    rw [applyCells_cons, ih, hview]

theorem applyCells_eq (step : Grid → Int → Int → Grid) (mask : Nat)
    (hwrite : ∀ (g : Grid) (y x r c : Int), ¬(r = y ∧ c = x) → step g y x r c = g r c)
    (hview : ∀ (g : Grid) (y x r c : Int), step g y x r c &&& mask = g r c &&& mask)
    (hread : ∀ (g g' : Grid) (y x : Int), (∀ a b, g a b &&& mask = g' a b &&& mask) →
      g y x = g' y x → step g y x y x = step g' y x y x)
    (l : List (Int × Int)) (hl : l.Nodup) :
    ∀ (g : Grid) (r c : Int),
      applyCells step l g r c = if (r, c) ∈ l then step g r c r c else g r c := by
  induction l with
  | nil => intro g r c; simp [applyCells]
  | cons p rest ih =>
    intro g r c
    have hnd : rest.Nodup := (List.nodup_cons.mp hl).2
    have hpn : p ∉ rest := (List.nodup_cons.mp hl).1
    rw [applyCells_cons, ih hnd]
    by_cases hmem : (r, c) ∈ rest
    · rw [if_pos hmem, if_pos (List.mem_cons_of_mem p hmem)]
      have hne : ¬(r = p.1 ∧ c = p.2) := by
        rintro ⟨h1, h2⟩
        apply hpn
        have : p = (r, c) := by
          rw [h1, h2]
        rw [this]
        exact hmem
      exact hread (step g p.1 p.2) g r c (fun a b => hview g p.1 p.2 a b)
        (hwrite g p.1 p.2 r c hne)
    · rw [if_neg hmem]
      by_cases hp : r = p.1 ∧ c = p.2
      · rcases hp with ⟨h1, h2⟩
        subst h1
        subst h2
        rw [if_pos (by simp)]
      · rw [hwrite g p.1 p.2 r c hp, if_neg (by
          intro hmemc
          rcases List.mem_cons.mp hmemc with h | h
          · exact hp ⟨congrArg Prod.fst h, congrArg Prod.snd h⟩
          · exact hmem h)]

/-! ## Claim C8 -/

/-- C8: a cell whose 4-point occupancy pattern is not one of the six
recognized patterns gets no collision bits (`tile_bits` keeps its initial
0 before the tag chain, so its collision group is none), and the
color-based tag classification still runs exactly as for a
collision-free cell.  `ProcessAnnotations` has no failure or diagnostic
channel at all (it returns nothing), so nothing is reported. -/
theorem unrecognizedOccupancy_c8 (img : MetaImage) (x y : Nat)
    (hocc : collisionOccupancy img x y ∉ ([0, 15, 5, 9, 6, 10] : List Nat)) :
    annotateTileBits img x y = applyTags img x y 0 ∧
    annotateTileBits img x y &&& kCollisionMask = 0 := by
  simp only [List.mem_cons] at hocc
  push_neg at hocc
  obtain ⟨h0, h15, h5, h9, h6, h10, -⟩ := hocc
  have hzero : collisionBitsOf (collisionOccupancy img x y) = 0 := by
    unfold collisionBitsOf
    rw [if_neg h0, if_neg h15, if_neg h5, if_neg h9, if_neg h6, if_neg h10]
  have heq : annotateTileBits img x y = applyTags img x y 0 := by
    unfold annotateTileBits
    rw [hzero]
  refine ⟨heq, ?_⟩
  rw [heq]
  unfold applyTags
  split
  · split <;> decide
  · split
    · split <;> decide
    · split
      · decide
      · split
        · split <;> decide
        · split
          · split <;> decide
          · decide

/-- C8 witness: a cell whose only opaque sample is the upper edge midpoint
(occupancy pattern 1). -/
theorem unrecognizedOccupancy_c8_witness :
    annotateTileBits c8ExampleImage 0 0 = applyTags c8ExampleImage 0 0 0 ∧
    annotateTileBits c8ExampleImage 0 0 &&& kCollisionMask = 0 :=
  unrecognizedOccupancy_c8 c8ExampleImage 0 0 (by decide)

/-! ## Claim C9 -/

theorem removeGhostCell_write (g : Grid) (y x r c : Int) (hne : ¬(r = y ∧ c = x)) :
    removeGhostCell g y x r c = g r c := by
  unfold removeGhostCell
  split
  · simp [setCell, hne]
  · rfl

theorem removeGhostCell_read (g g' : Grid) (y x : Int)
    (hown : g y x = g' y x) : removeGhostCell g y x y x = removeGhostCell g' y x y x := by
  unfold removeGhostCell
  rw [hown]
  split
  · simp [setCell]
  · exact hown

theorem removeGhosts_grid (w h : Int) (g : Grid) (r c : Int) :
    (removeGhosts w h g).1 r c =
      if (r, c) ∈ coordList w h then removeGhostCell g r c r c else g r c := by
  unfold removeGhosts
  exact applyCells_eq removeGhostCell 0
    (fun g y x r c hne => removeGhostCell_write g y x r c hne)
    (fun g y x r c => by simp)
    (fun g g' y x _ hown => removeGhostCell_read g g' y x hown)
    (coordList w h) (coordList_nodup w h) g r c

/-- C9: the ghost-cleanup pass clears exactly the ghost flag and the
collision bits of every in-bounds ghost cell, preserves every other bit
group of those cells (mount flags, breakable, collectible directions,
chain/terminal flags), leaves every non-ghost and out-of-bounds cell
untouched, and always succeeds. -/
theorem removeGhosts_c9 (w h : Int) (g : Grid) (y x : Int) :
    (removeGhosts w h g).2 = true ∧
    ((0 ≤ y ∧ y < h ∧ 0 ≤ x ∧ x < w) →
      ((removeGhosts w h g).1 y x =
        (if g y x &&& kGhostCollisionTile ≠ 0 then
          andNot (g y x) (kGhostCollisionTile ||| kCollisionMask)
        else g y x)) ∧
      (removeGhosts w h g).1 y x &&& kMountMask = g y x &&& kMountMask ∧
      (removeGhosts w h g).1 y x &&& kBreakableTile = g y x &&& kBreakableTile ∧
      (removeGhosts w h g).1 y x &&& kCollectibleTileMask = g y x &&& kCollectibleTileMask ∧
      (removeGhosts w h g).1 y x &&& (kChainReaction ||| kTerminalReaction) =
        g y x &&& (kChainReaction ||| kTerminalReaction)) ∧
    (¬(0 ≤ y ∧ y < h ∧ 0 ≤ x ∧ x < w) → (removeGhosts w h g).1 y x = g y x) := by
  refine ⟨rfl, ?_, ?_⟩
  · intro hin
    have hval : (removeGhosts w h g).1 y x = removeGhostCell g y x y x := by
      rw [removeGhosts_grid, if_pos ((mem_coordList w h y x).mpr hin)]
    have hcell : removeGhostCell g y x y x =
        (if g y x &&& kGhostCollisionTile ≠ 0 then
          andNot (g y x) (kGhostCollisionTile ||| kCollisionMask)
        else g y x) := by
      unfold removeGhostCell
      split
      · simp [setCell]
      · rfl
    rw [hval, hcell]
    refine ⟨rfl, ?_, ?_, ?_, ?_⟩ <;>
      (split
       · exact andNot_and_disjoint _ _ _ (by decide)
       · rfl)
  · intro hout
    rw [removeGhosts_grid, if_neg (fun hmem => hout ((mem_coordList w h y x).mp hmem))]

/-- C9 witness: the ghost square cell at the origin of the example grid is
cleared of its ghost and collision bits while its mount and chain bits
survive. -/
theorem removeGhosts_c9_witness :
    (removeGhosts 2 2 c9ExampleGrid).1 0 0 =
      (if c9ExampleGrid 0 0 &&& kGhostCollisionTile ≠ 0 then
        andNot (c9ExampleGrid 0 0) (kGhostCollisionTile ||| kCollisionMask)
      else c9ExampleGrid 0 0) ∧
    (removeGhosts 2 2 c9ExampleGrid).1 0 0 &&& kMountMask =
      c9ExampleGrid 0 0 &&& kMountMask ∧
    (removeGhosts 2 2 c9ExampleGrid).1 0 0 &&& kBreakableTile =
      c9ExampleGrid 0 0 &&& kBreakableTile ∧
    (removeGhosts 2 2 c9ExampleGrid).1 0 0 &&& kCollectibleTileMask =
      c9ExampleGrid 0 0 &&& kCollectibleTileMask ∧
    (removeGhosts 2 2 c9ExampleGrid).1 0 0 &&& (kChainReaction ||| kTerminalReaction) =
      c9ExampleGrid 0 0 &&& (kChainReaction ||| kTerminalReaction) :=
  (removeGhosts_c9 2 2 c9ExampleGrid 0 0).2.1 (by decide)

/-! ## Claim C5 -/

theorem checkTerminalCell_eq (tiles : Grid) (w h : Int) (st : List Diag × Bool) (y x : Int) :
    checkTerminalCell tiles w h st y x =
      if terminalViolation tiles w h y x = true then
        (st.1 ++ [Diag.terminalNeedsChain y x], false)
      else st := by
  unfold checkTerminalCell terminalViolation
  by_cases ht : tiles y x &&& kTerminalReaction ≠ 0
  · by_cases ha : adjacentToChainReaction tiles w h y x
    · simp [ht, ha]
    · simp [ht, ha]
  · simp [ht]

theorem checkTerminal_fold (tiles : Grid) (w h : Int) (l : List (Int × Int)) :
    ∀ st : List Diag × Bool,
      (l.foldl (fun st p => checkTerminalCell tiles w h st p.1 p.2) st).2 =
        (st.2 && l.all fun p => !terminalViolation tiles w h p.1 p.2) ∧
      (l.foldl (fun st p => checkTerminalCell tiles w h st p.1 p.2) st).1 =
        st.1 ++ ((l.filter fun p => terminalViolation tiles w h p.1 p.2).map
          fun p => Diag.terminalNeedsChain p.1 p.2) := by
  induction l with
  | nil => intro st; simp
  | cons p rest ih =>
    intro st
    simp only [List.foldl_cons, List.all_cons, List.filter_cons]
    rw [checkTerminalCell_eq]
    by_cases hv : terminalViolation tiles w h p.1 p.2 = true
    · rw [if_pos hv]
      refine ⟨?_, ?_⟩
      · rw [(ih _).1]
        simp [hv]
      · rw [(ih _).2]
        simp [hv]
    · rw [if_neg hv]
      refine ⟨?_, ?_⟩
      · rw [(ih _).1]
        simp [eq_false_of_ne_true hv]
      · rw [(ih _).2]
        simp [eq_false_of_ne_true hv]

/-- C5: `CheckTerminalReactions` succeeds exactly when every in-bounds
terminal-reaction cell has an orthogonal in-grid chain-reaction neighbor,
and every terminal-reaction cell without such a neighbor is reported with
its own diagnostic. -/
theorem terminalReactions_c5 (w h : Int) (tiles : Grid) :
    ((checkTerminalReactions w h tiles).2 = true ↔
      ∀ y x : Int, 0 ≤ y → y < h → 0 ≤ x → x < w →
        tiles y x &&& kTerminalReaction ≠ 0 →
        adjacentToChainReaction tiles w h y x = true) ∧
    (∀ y x : Int, 0 ≤ y → y < h → 0 ≤ x → x < w →
      tiles y x &&& kTerminalReaction ≠ 0 →
      adjacentToChainReaction tiles w h y x = false →
      Diag.terminalNeedsChain y x ∈ (checkTerminalReactions w h tiles).1) := by
  have hfold := checkTerminal_fold tiles w h (coordList w h) ([], true)
  constructor
  · rw [show (checkTerminalReactions w h tiles).2 =
        ((coordList w h).foldl (fun st p => checkTerminalCell tiles w h st p.1 p.2)
          ([], true)).2 from rfl, hfold.1]
    simp only [Bool.true_and, List.all_eq_true]
    constructor
    · intro hall y x hy0 hyh hx0 hxw hterm
      have hmem : (y, x) ∈ coordList w h := (mem_coordList w h y x).mpr ⟨hy0, hyh, hx0, hxw⟩
      have hv := hall (y, x) hmem
      cases hadj : adjacentToChainReaction tiles w h y x
      · rw [show ((y, x).1 : Int) = y from rfl, show ((y, x).2 : Int) = x from rfl] at hv
        unfold terminalViolation at hv
        rw [hadj] at hv
        simp [hterm] at hv
      · rfl
    · intro hcond p hmem
      rcases p with ⟨y, x⟩
      rcases (mem_coordList w h y x).mp hmem with ⟨hy0, hyh, hx0, hxw⟩
      by_cases hterm : tiles y x &&& kTerminalReaction ≠ 0
      · have hadj := hcond y x hy0 hyh hx0 hxw hterm
        simp [terminalViolation, hadj]
      · simp [terminalViolation, hterm]
  · intro y x hy0 hyh hx0 hxw hterm hadj
    rw [show (checkTerminalReactions w h tiles).1 =
        ((coordList w h).foldl (fun st p => checkTerminalCell tiles w h st p.1 p.2)
          ([], true)).1 from rfl, hfold.2]
    simp only [List.nil_append, List.mem_map]
    refine ⟨(y, x), ?_, rfl⟩
    rw [List.mem_filter]
    refine ⟨(mem_coordList w h y x).mpr ⟨hy0, hyh, hx0, hxw⟩, ?_⟩
    simp [terminalViolation, hterm, hadj]

/-- C5 witness: the lone terminal-reaction cell of the example grid is
reported as lacking a chain-reaction neighbor. -/
theorem terminalReactions_c5_witness :
    Diag.terminalNeedsChain 1 1 ∈ (checkTerminalReactions 3 3 c5ExampleGrid).1 :=
  (terminalReactions_c5 3 3 c5ExampleGrid).2 1 1 (by decide) (by decide) (by decide)
    (by decide) (by decide) (by decide)

/-! ## More bit-level helper lemmas -/

theorem and_lor_right (a b m : Nat) : (a ||| b) &&& m = (a &&& m) ||| (b &&& m) := by
  apply Nat.eq_of_testBit_eq
  intro i
  rw [Nat.testBit_land, Nat.testBit_lor, Nat.testBit_lor, Nat.testBit_land, Nat.testBit_land]
  cases a.testBit i <;> cases b.testBit i <;> cases m.testBit i <;> rfl

theorem lor_and_disjoint (a m mask : Nat) (h : m &&& mask = 0) :
    (a ||| m) &&& mask = a &&& mask := by
  rw [and_lor_right, h, Nat.or_zero _]

theorem and_eq_of_and_eq {a b m m' : Nat} (hmm : m &&& m' = m) (h : a &&& m' = b &&& m') :
    a &&& m = b &&& m := by
  apply Nat.eq_of_testBit_eq
  intro i
  rw [Nat.testBit_land, Nat.testBit_land]
  by_cases hm : m.testBit i = true
  · have hm' : m'.testBit i = true := by
      have hb := congrArg (fun n => n.testBit i) hmm
      simp only [Nat.testBit_land] at hb
      cases hmm' : m'.testBit i
      · rw [hmm', Bool.and_false] at hb
        rw [hm] at hb
        exact absurd hb (by decide)
      · rfl
    have hab := congrArg (fun n => n.testBit i) h
    simp only [Nat.testBit_land, hm'] at hab
    simp only [Bool.and_true] at hab
    rw [hab]
  · rw [Bool.not_eq_true] at hm
    rw [hm, Bool.and_false, Bool.and_false]

theorem ite_and_zero (c : Prop) [Decidable c] (m mask : Nat) (hm : m &&& mask = 0) :
    (if c then m else 0) &&& mask = 0 := by
  split
  · exact hm
  · exact Nat.zero_and mask

/-! ## View invariance of the mount-detection reads -/

theorem isEmptyOrBreakable_view (g g' : Grid)
    (hview : ∀ a b, g a b &&& kMountReadMask = g' a b &&& kMountReadMask) :
    ∀ w h x y, isEmptyOrBreakable g w h x y = isEmptyOrBreakable g' w h x y := by
  intro w h x y
  unfold isEmptyOrBreakable
  split
  · rfl
  · have h7 : g y x &&& kCollisionMask = g' y x &&& kCollisionMask :=
      and_eq_of_and_eq (by decide) (hview y x)
    have h8 : g y x &&& kBreakableTile = g' y x &&& kBreakableTile :=
      and_eq_of_and_eq (by decide) (hview y x)
    rw [h7, h8]

theorem neighborCollision_view (g g' : Grid)
    (hview : ∀ a b, g a b &&& kMountReadMask = g' a b &&& kMountReadMask) :
    ∀ w h x y dx dy, neighborCollision g w h x y dx dy = neighborCollision g' w h x y dx dy := by
  intro w h x y dx dy
  unfold neighborCollision
  split
  · have h7 : g (y + dy) (x + dx) &&& kCollisionMask =
        g' (y + dy) (x + dx) &&& kCollisionMask :=
      and_eq_of_and_eq (by decide) (hview (y + dy) (x + dx))
    rw [h7]
  · rfl

theorem aEOB_view (g g' : Grid)
    (hview : ∀ a b, g a b &&& kMountReadMask = g' a b &&& kMountReadMask) :
    ∀ w h x y dx dy, aEOB g w h x y dx dy = aEOB g' w h x y dx dy := by
  intro w h x y dx dy
  unfold aEOB
  rw [isEmptyOrBreakable_view g g' hview]

theorem hasEnoughClearance_view (g g' : Grid)
    (hview : ∀ a b, g a b &&& kMountReadMask = g' a b &&& kMountReadMask) :
    ∀ w h x y ndx ndy bx b_y, hasEnoughClearance g w h x y ndx ndy bx b_y =
      hasEnoughClearance g' w h x y ndx ndy bx b_y := by
  intro w h x y ndx ndy bx b_y
  unfold hasEnoughClearance
  rw [aEOB_view g g' hview, aEOB_view g g' hview]

theorem mountOutwardClear_view (g g' : Grid)
    (hview : ∀ a b, g a b &&& kMountReadMask = g' a b &&& kMountReadMask) :
    ∀ w h x y ndx ndy, mountOutwardClear g w h x y ndx ndy =
      mountOutwardClear g' w h x y ndx ndy := by
  intro w h x y ndx ndy
  unfold mountOutwardClear
  rw [aEOB_view g g' hview, aEOB_view g g' hview]

theorem mountLateralOk_view (g g' : Grid)
    (hview : ∀ a b, g a b &&& kMountReadMask = g' a b &&& kMountReadMask) :
    ∀ w h x y ndx ndy, mountLateralOk g w h x y ndx ndy =
      mountLateralOk g' w h x y ndx ndy := by
  intro w h x y ndx ndy
  unfold mountLateralOk
  have h7 : g y x &&& kCollisionMask = g' y x &&& kCollisionMask :=
    and_eq_of_and_eq (by decide) (hview y x)
  rw [neighborCollision_view g g' hview, neighborCollision_view g g' hview, h7,
    hasEnoughClearance_view g g' hview, hasEnoughClearance_view g g' hview]

theorem mountCornerOk_view (g g' : Grid)
    (hview : ∀ a b, g a b &&& kMountReadMask = g' a b &&& kMountReadMask) :
    ∀ w h x y ndx ndy, mountCornerOk g w h x y ndx ndy =
      mountCornerOk g' w h x y ndx ndy := by
  intro w h x y ndx ndy
  unfold mountCornerOk
  rw [hasEnoughClearance_view g g' hview, hasEnoughClearance_view g g' hview,
    hasEnoughClearance_view g g' hview, hasEnoughClearance_view g g' hview]

theorem assignCond_view (g g' : Grid)
    (hview : ∀ a b, g a b &&& kMountReadMask = g' a b &&& kMountReadMask) :
    ∀ ndx ndy w h x y, assignCond g ndx ndy w h x y = assignCond g' ndx ndy w h x y := by
  intro ndx ndy w h x y
  unfold assignCond
  rw [mountOutwardClear_view g g' hview, mountLateralOk_view g g' hview,
    mountCornerOk_view g g' hview]

/-! ## Flat characterization of the mount pass -/

theorem assign_cases (m : Nat) (ndx ndy w h x y : Int) (g : Grid) :
    assignMountAttributes m ndx ndy w h x y g =
      if assignCond g ndx ndy w h x y then setCell g y x (g y x ||| m) else g := by
  unfold assignMountAttributes assignCond
  by_cases h1 : mountOutwardClear g w h x y ndx ndy = true
  · by_cases h2 : mountLateralOk g w h x y ndx ndy = true
    · by_cases hax : ndx = 0 ∨ ndy = 0
      · simp [h1, h2, hax]
      · by_cases h4 : mountCornerOk g w h x y ndx ndy = true
        · simp [h1, h2, hax, h4]
        · simp [h1, h2, hax, h4]
    · simp [h1, h2]
  · simp [h1]

theorem assign_flat (m : Nat) (ndx ndy w h x y : Int) (g : Grid) (r c : Int) :
    assignMountAttributes m ndx ndy w h x y g r c =
      if r = y ∧ c = x then
        g y x ||| (if assignCond g ndx ndy w h x y then m else 0)
      else g r c := by
  rw [assign_cases]
  by_cases hc : assignCond g ndx ndy w h x y = true
  · rw [if_pos hc]
    unfold setCell
    by_cases hrc : r = y ∧ c = x
    · rw [if_pos hrc, if_pos hrc, if_pos hc]
    · rw [if_neg hrc, if_neg hrc]
  · rw [if_neg hc]
    by_cases hrc : r = y ∧ c = x
    · rw [if_pos hrc, if_neg hc, Nat.or_zero _, hrc.1, hrc.2]
    · rw [if_neg hrc]

theorem assign_view (m : Nat) (hm : m &&& kMountReadMask = 0) (ndx ndy w h x y : Int)
    (g : Grid) : ∀ a b,
    assignMountAttributes m ndx ndy w h x y g a b &&& kMountReadMask =
      g a b &&& kMountReadMask := by
  intro a b
  rw [assign_flat]
  by_cases hab : a = y ∧ b = x
  · rw [if_pos hab, hab.1, hab.2, lor_and_disjoint _ _ _ (ite_and_zero _ _ _ hm)]
  · rw [if_neg hab]

theorem write_zero_case (g : Grid) (y x r c : Int) :
    g r c = if r = y ∧ c = x then g y x ||| 0 else g r c := by
  by_cases hrc : r = y ∧ c = x
  · rw [if_pos hrc, Nat.or_zero _, hrc.1, hrc.2]
  · rw [if_neg hrc]

theorem detectCell_flat (w h : Int) (g : Grid) (y x : Int) (r c : Int) :
    detectCell w h g y x r c =
      if r = y ∧ c = x then g y x ||| cellMountMask g w h y x else g r c := by
  unfold detectCell cellMountMask
  by_cases hbr : g y x &&& kBreakableTile ≠ 0
  · rw [if_pos hbr, if_pos hbr]
    exact write_zero_case g y x r c
  · rw [if_neg hbr, if_neg hbr]
    by_cases h0 : g y x &&& kCollisionMask = kCollisionNone
    · rw [if_pos h0, if_pos h0]
      exact write_zero_case g y x r c
    · rw [if_neg h0, if_neg h0]
      by_cases h1 : g y x &&& kCollisionMask = kCollisionSquare
      · rw [if_pos h1, if_pos h1]
        have hv1 : ∀ a b,
            assignMountAttributes kMountUp 0 (-1) w h x y g a b &&& kMountReadMask =
              g a b &&& kMountReadMask :=
          assign_view kMountUp (by decide) 0 (-1) w h x y g
        have hc2 : assignCond (assignMountAttributes kMountUp 0 (-1) w h x y g)
            0 1 w h x y = assignCond g 0 1 w h x y :=
          assignCond_view _ _ hv1 0 1 w h x y
        have hg1 : ∀ a b, assignMountAttributes kMountUp 0 (-1) w h x y g a b =
            if a = y ∧ b = x then
              g y x ||| (if assignCond g 0 (-1) w h x y then kMountUp else 0)
            else g a b := fun a b => assign_flat kMountUp 0 (-1) w h x y g a b
        have hg2 : ∀ a b,
            assignMountAttributes kMountDown 0 1 w h x y
              (assignMountAttributes kMountUp 0 (-1) w h x y g) a b =
            if a = y ∧ b = x then
              (g y x ||| (if assignCond g 0 (-1) w h x y then kMountUp else 0)) |||
                (if assignCond g 0 1 w h x y then kMountDown else 0)
            else g a b := by
          intro a b
          rw [assign_flat, hc2]
          by_cases hab : a = y ∧ b = x
          · rw [if_pos hab, if_pos hab, hg1 y x, if_pos ⟨rfl, rfl⟩]
          · rw [if_neg hab, if_neg hab, hg1 a b, if_neg hab]
        have hv2 : ∀ a b,
            assignMountAttributes kMountDown 0 1 w h x y
              (assignMountAttributes kMountUp 0 (-1) w h x y g) a b &&& kMountReadMask =
              g a b &&& kMountReadMask := fun a b => by
          rw [assign_view kMountDown (by decide) 0 1 w h x y _ a b, hv1 a b]
        have hc3 : assignCond (assignMountAttributes kMountDown 0 1 w h x y
            (assignMountAttributes kMountUp 0 (-1) w h x y g)) (-1) 0 w h x y =
            assignCond g (-1) 0 w h x y :=
          assignCond_view _ _ hv2 (-1) 0 w h x y
        have hg3 : ∀ a b,
            assignMountAttributes kMountLeft (-1) 0 w h x y
              (assignMountAttributes kMountDown 0 1 w h x y
                (assignMountAttributes kMountUp 0 (-1) w h x y g)) a b =
            if a = y ∧ b = x then
              ((g y x ||| (if assignCond g 0 (-1) w h x y then kMountUp else 0)) |||
                (if assignCond g 0 1 w h x y then kMountDown else 0)) |||
                (if assignCond g (-1) 0 w h x y then kMountLeft else 0)
            else g a b := by
          intro a b
          rw [assign_flat, hc3]
          by_cases hab : a = y ∧ b = x
          · rw [if_pos hab, if_pos hab, hg2 y x, if_pos ⟨rfl, rfl⟩]
          · rw [if_neg hab, if_neg hab, hg2 a b, if_neg hab]
        have hv3 : ∀ a b,
            assignMountAttributes kMountLeft (-1) 0 w h x y
              (assignMountAttributes kMountDown 0 1 w h x y
                (assignMountAttributes kMountUp 0 (-1) w h x y g)) a b &&&
              kMountReadMask = g a b &&& kMountReadMask := fun a b => by
          rw [assign_view kMountLeft (by decide) (-1) 0 w h x y _ a b, hv2 a b]
        have hc4 : assignCond (assignMountAttributes kMountLeft (-1) 0 w h x y
            (assignMountAttributes kMountDown 0 1 w h x y
              (assignMountAttributes kMountUp 0 (-1) w h x y g))) 1 0 w h x y =
            assignCond g 1 0 w h x y :=
          assignCond_view _ _ hv3 1 0 w h x y
        rw [assign_flat, hc4]
        by_cases hab : r = y ∧ c = x
        · rw [if_pos hab, if_pos hab, hg3 y x, if_pos ⟨rfl, rfl⟩]
          simp only [Nat.lor_assoc]
        · rw [if_neg hab, if_neg hab, hg3 r c, if_neg hab]
      · rw [if_neg h1, if_neg h1]
        by_cases h2 : g y x &&& kCollisionMask = kCollisionUpLeft
        · rw [if_pos h2, if_pos h2]
          exact assign_flat _ _ _ w h x y g r c
        · rw [if_neg h2, if_neg h2]
          by_cases h3 : g y x &&& kCollisionMask = kCollisionUpRight
          · rw [if_pos h3, if_pos h3]
            exact assign_flat _ _ _ w h x y g r c
          · rw [if_neg h3, if_neg h3]
            by_cases h4 : g y x &&& kCollisionMask = kCollisionDownLeft
            · rw [if_pos h4, if_pos h4]
              exact assign_flat _ _ _ w h x y g r c
            · rw [if_neg h4, if_neg h4]
              by_cases h5 : g y x &&& kCollisionMask = kCollisionDownRight
              · rw [if_pos h5, if_pos h5]
                exact assign_flat _ _ _ w h x y g r c
              · rw [if_neg h5, if_neg h5]
                exact write_zero_case g y x r c

theorem cellMountMask_read_zero (g : Grid) (w h y x : Int) :
    cellMountMask g w h y x &&& kMountReadMask = 0 := by
  unfold cellMountMask
  split
  · exact Nat.zero_and _
  split
  · exact Nat.zero_and _
  split
  · rw [and_lor_right, and_lor_right, and_lor_right,
      ite_and_zero _ _ _ (by decide), ite_and_zero _ _ _ (by decide),
      ite_and_zero _ _ _ (by decide), ite_and_zero _ _ _ (by decide)]
    decide
  split
  · exact ite_and_zero _ _ _ (by decide)
  split
  · exact ite_and_zero _ _ _ (by decide)
  split
  · exact ite_and_zero _ _ _ (by decide)
  split
  · exact ite_and_zero _ _ _ (by decide)
  · exact Nat.zero_and _

theorem cellMountMask_view (g g' : Grid)
    (hview : ∀ a b, g a b &&& kMountReadMask = g' a b &&& kMountReadMask) :
    ∀ w h y x, cellMountMask g w h y x = cellMountMask g' w h y x := by
  intro w h y x
  unfold cellMountMask
  have h7 : g y x &&& kCollisionMask = g' y x &&& kCollisionMask :=
    and_eq_of_and_eq (by decide) (hview y x)
  have h8 : g y x &&& kBreakableTile = g' y x &&& kBreakableTile :=
    and_eq_of_and_eq (by decide) (hview y x)
  rw [h7, h8, assignCond_view g g' hview, assignCond_view g g' hview,
    assignCond_view g g' hview, assignCond_view g g' hview,
    assignCond_view g g' hview, assignCond_view g g' hview,
    assignCond_view g g' hview, assignCond_view g g' hview]

theorem detectMountPoints_grid (w h : Int) (g : Grid) (r c : Int) :
    detectMountPoints w h g r c =
      if (r, c) ∈ coordList w h then g r c ||| cellMountMask g w h r c else g r c := by
  unfold detectMountPoints
  rw [applyCells_eq (detectCell w h) kMountReadMask
    (fun g y x r c hne => by rw [detectCell_flat, if_neg hne])
    (fun g y x r c => by
      rw [detectCell_flat]
      by_cases hab : r = y ∧ c = x
      · rw [if_pos hab, hab.1, hab.2,
          lor_and_disjoint _ _ _ (cellMountMask_read_zero g w h y x)]
      · rw [if_neg hab])
    (fun g g' y x hview hown => by
      rw [detectCell_flat, detectCell_flat, if_pos ⟨rfl, rfl⟩, if_pos ⟨rfl, rfl⟩, hown,
        cellMountMask_view g g' hview])
    (coordList w h) (coordList_nodup w h) g r c]
  by_cases hmem : (r, c) ∈ coordList w h
  · rw [if_pos hmem, if_pos hmem, detectCell_flat, if_pos ⟨rfl, rfl⟩]
  · rw [if_neg hmem, if_neg hmem]

/-! ## Claim C1 -/

/-- C1 counterexample: a lone unbreakable square cell at (2, 2) of an empty
5x5 grid.  The two cells stepping outward along the up direction are both
empty-or-breakable, yet the pass does not set the mount-up bit, because the
lateral neighbors are not squares: the claim's "if and only if" fails in
the "if" direction. -/
theorem squareMount_c1_counterexample :
    c1CexGrid 2 2 &&& kCollisionMask = kCollisionSquare ∧
    c1CexGrid 2 2 &&& kBreakableTile = 0 ∧
    isEmptyOrBreakable c1CexGrid 5 5 2 1 = true ∧
    isEmptyOrBreakable c1CexGrid 5 5 2 0 = true ∧
    detectMountPoints 5 5 c1CexGrid 2 2 &&& kMountUp = 0 := by
  refine ⟨by decide, by decide, by decide, by decide, ?_⟩
  rw [detectMountPoints_grid]
  decide

theorem mount_bits_extract (base : Nat) (b1 b2 b3 b4 : Bool)
    (hbase : base &&& kMountMask = 0) :
    ((base ||| ((if b1 = true then kMountUp else 0) ||| (if b2 = true then kMountDown else 0) |||
      (if b3 = true then kMountLeft else 0) ||| (if b4 = true then kMountRight else 0))) &&&
        kMountUp ≠ 0 ↔ b1 = true) ∧
    ((base ||| ((if b1 = true then kMountUp else 0) ||| (if b2 = true then kMountDown else 0) |||
      (if b3 = true then kMountLeft else 0) ||| (if b4 = true then kMountRight else 0))) &&&
        kMountDown ≠ 0 ↔ b2 = true) ∧
    ((base ||| ((if b1 = true then kMountUp else 0) ||| (if b2 = true then kMountDown else 0) |||
      (if b3 = true then kMountLeft else 0) ||| (if b4 = true then kMountRight else 0))) &&&
        kMountLeft ≠ 0 ↔ b3 = true) ∧
    ((base ||| ((if b1 = true then kMountUp else 0) ||| (if b2 = true then kMountDown else 0) |||
      (if b3 = true then kMountLeft else 0) ||| (if b4 = true then kMountRight else 0))) &&&
        kMountRight ≠ 0 ↔ b4 = true) := by
  have hU : base &&& 16 = 0 := by
    have h := and_eq_of_and_eq (m := kMountUp) (by decide)
      (hbase.trans (Nat.zero_and kMountMask).symm)
    rw [Nat.zero_and] at h
    exact h
  have hD : base &&& 32 = 0 := by
    have h := and_eq_of_and_eq (m := kMountDown) (by decide)
      (hbase.trans (Nat.zero_and kMountMask).symm)
    rw [Nat.zero_and] at h
    exact h
  have hL : base &&& 64 = 0 := by
    have h := and_eq_of_and_eq (m := kMountLeft) (by decide)
      (hbase.trans (Nat.zero_and kMountMask).symm)
    rw [Nat.zero_and] at h
    exact h
  have hR : base &&& 128 = 0 := by
    have h := and_eq_of_and_eq (m := kMountRight) (by decide)
      (hbase.trans (Nat.zero_and kMountMask).symm)
    rw [Nat.zero_and] at h
    exact h
  cases b1 <;> cases b2 <;> cases b3 <;> cases b4 <;>
    simp [kMountUp, kMountDown, kMountLeft, kMountRight, and_lor_right, hU, hD, hL, hR] <;>
    decide

theorem assignCond_axis_iff (g : Grid) (w h x y ndx ndy : Int) (hax : ndx = 0 ∨ ndy = 0)
    (hc : ((g y x &&& kCollisionMask : Nat) : Int) = 1) :
    (assignCond g ndx ndy w h x y = true ↔
      (aEOB g w h x y ndx ndy = true ∧ aEOB g w h x y (ndx * 2) (ndy * 2) = true ∧
       neighborCollision g w h x y (-ndy) ndx = 1 ∧
       neighborCollision g w h x y ndy (-ndx) = 1 ∧
       hasEnoughClearance g w h x y ndx ndy (-ndy) ndx = true ∧
       hasEnoughClearance g w h x y ndx ndy ndy (-ndx) = true)) := by
  unfold assignCond mountOutwardClear mountLateralOk
  rw [hc]
  simp [hax, and_assoc]

/-- C1 amended: for a square-collision, non-breakable in-bounds cell of a
grid carrying no mount bits there yet, the mount bit for an axis direction
D is set by the pass if and only if the two cells stepping outward along D
are both empty-or-breakable AND the two lateral neighbors perpendicular to
D both have square collision bits AND each lateral neighbor's own two
outward cells along D are also empty-or-breakable.  (The claim's condition
kept only the first of these three conjuncts.) -/
theorem squareMount_c1_amended (g : Grid) (w h x y : Int)
    (hx0 : 0 ≤ x) (hxw : x < w) (hy0 : 0 ≤ y) (hyh : y < h)
    (hsq : g y x &&& kCollisionMask = kCollisionSquare)
    (hbr : g y x &&& kBreakableTile = 0)
    (hm : g y x &&& kMountMask = 0) :
    (detectMountPoints w h g y x &&& kMountUp ≠ 0 ↔
      (aEOB g w h x y 0 (-1) = true ∧ aEOB g w h x y 0 (-2) = true ∧
       neighborCollision g w h x y 1 0 = 1 ∧ neighborCollision g w h x y (-1) 0 = 1 ∧
       hasEnoughClearance g w h x y 0 (-1) 1 0 = true ∧
       hasEnoughClearance g w h x y 0 (-1) (-1) 0 = true)) ∧
    (detectMountPoints w h g y x &&& kMountDown ≠ 0 ↔
      (aEOB g w h x y 0 1 = true ∧ aEOB g w h x y 0 2 = true ∧
       neighborCollision g w h x y (-1) 0 = 1 ∧ neighborCollision g w h x y 1 0 = 1 ∧
       hasEnoughClearance g w h x y 0 1 (-1) 0 = true ∧
       hasEnoughClearance g w h x y 0 1 1 0 = true)) ∧
    (detectMountPoints w h g y x &&& kMountLeft ≠ 0 ↔
      (aEOB g w h x y (-1) 0 = true ∧ aEOB g w h x y (-2) 0 = true ∧
       neighborCollision g w h x y 0 (-1) = 1 ∧ neighborCollision g w h x y 0 1 = 1 ∧
       hasEnoughClearance g w h x y (-1) 0 0 (-1) = true ∧
       hasEnoughClearance g w h x y (-1) 0 0 1 = true)) ∧
    (detectMountPoints w h g y x &&& kMountRight ≠ 0 ↔
      (aEOB g w h x y 1 0 = true ∧ aEOB g w h x y 2 0 = true ∧
       neighborCollision g w h x y 0 1 = 1 ∧ neighborCollision g w h x y 0 (-1) = 1 ∧
       hasEnoughClearance g w h x y 1 0 0 1 = true ∧
       hasEnoughClearance g w h x y 1 0 0 (-1) = true)) := by
  have hcell : detectMountPoints w h g y x = g y x ||| cellMountMask g w h y x := by
    rw [detectMountPoints_grid, if_pos ((mem_coordList w h y x).mpr ⟨hy0, hyh, hx0, hxw⟩)]
  have hcm : cellMountMask g w h y x =
      (if assignCond g 0 (-1) w h x y = true then kMountUp else 0) |||
      (if assignCond g 0 1 w h x y = true then kMountDown else 0) |||
      (if assignCond g (-1) 0 w h x y = true then kMountLeft else 0) |||
      (if assignCond g 1 0 w h x y = true then kMountRight else 0) := by
    unfold cellMountMask
    rw [if_neg (by rw [hbr]; exact fun hcon => hcon rfl),
      if_neg (by rw [hsq]; decide), if_pos hsq]
  have hc1 : ((g y x &&& kCollisionMask : Nat) : Int) = 1 := by
    rw [hsq]
    decide
  have hext := mount_bits_extract (g y x) (assignCond g 0 (-1) w h x y)
    (assignCond g 0 1 w h x y) (assignCond g (-1) 0 w h x y)
    (assignCond g 1 0 w h x y) hm
  have hup := assignCond_axis_iff g w h x y 0 (-1) (Or.inl rfl) hc1
  have hdown := assignCond_axis_iff g w h x y 0 1 (Or.inl rfl) hc1
  have hleft := assignCond_axis_iff g w h x y (-1) 0 (Or.inr rfl) hc1
  have hright := assignCond_axis_iff g w h x y 1 0 (Or.inr rfl) hc1
  norm_num at hup hdown hleft hright
  rw [hcell, hcm]
  exact ⟨hext.1.trans hup, hext.2.1.trans hdown, hext.2.2.1.trans hleft,
    hext.2.2.2.trans hright⟩

/-- C1 amended witness: the middle cell of a vertical three-square wall is
mountable to the left. -/
theorem squareMount_c1_amended_witness :
    detectMountPoints 5 5 c1ExampleGrid 2 2 &&& kMountLeft ≠ 0 :=
  ((squareMount_c1_amended c1ExampleGrid 5 5 2 2 (by decide) (by decide) (by decide)
    (by decide) (by decide) (by decide) (by decide)).2.2.1).mpr
    ⟨by decide, by decide, by decide, by decide, by decide, by decide⟩

/-! ## Step lemmas for `AdjustObstacles` -/

theorem andNot_and_self (t m : Nat) : andNot t m &&& m = 0 := by
  apply Nat.eq_of_testBit_eq
  intro i
  rw [Nat.testBit_land, andNot_testBit, Nat.zero_testBit]
  cases t.testBit i <;> cases m.testBit i <;> rfl

theorem andNot_zero_sub (t M m : Nat) (h : andNot t M = 0) (hm : M &&& m = 0) :
    t &&& m = 0 := by
  apply Nat.eq_of_testBit_eq
  intro i
  rw [Nat.testBit_land, Nat.zero_testBit]
  by_cases hmi : m.testBit i = true
  · have hMi : M.testBit i = false := and_eq_zero_testBit hm i hmi
    have ht := congrArg (fun n => n.testBit i) h
    simp only [andNot_testBit, Nat.zero_testBit, hMi] at ht
    simp only [Bool.not_false, Bool.and_true] at ht
    rw [ht, Bool.false_and]
  · rw [Bool.not_eq_true] at hmi
    rw [hmi, Bool.and_false]

theorem adjustBreakable_step (st : AdjSt) (y x : Int) :
    ∃ d : List Diag, (adjustBreakable st y x).ds = st.ds ++ d ∧
      (adjustBreakable st y x).ok = (st.ok && d.isEmpty) ∧
      (adjustBreakable st y x).g = st.g ∧
      (adjustBreakable st y x).cnt = st.cnt := by
  unfold adjustBreakable
  split
  · exact ⟨[Diag.breakableNeedsCollision y x], rfl, by simp, rfl, rfl⟩
  · exact ⟨[], by simp, by simp, rfl, rfl⟩

theorem adjustCollectible_step (w h : Int) (st : AdjSt) (y x : Int) :
    ∃ d : List Diag, (adjustCollectible w h st y x).ds = st.ds ++ d ∧
      (adjustCollectible w h st y x).ok = (st.ok && d.isEmpty) := by
  unfold adjustCollectible
  split
  · exact ⟨[Diag.collectibleOverlap y x], rfl, by simp⟩
  split
  · exact ⟨[Diag.collectibleNearEdge y x], rfl, by simp⟩
  split
  · split
    · exact ⟨[Diag.tooManyCollectibles y x], rfl, by simp⟩
    · exact ⟨[], by simp, by simp⟩
  · split
    · exact ⟨[Diag.collectibleNeedSquare y x], rfl, by simp⟩
    split
    · exact ⟨[Diag.collectibleNeedOneWall y x], rfl, by simp⟩
    · exact ⟨[Diag.collectibleSurround y x], rfl, by simp⟩

theorem adjustCell_step (w h : Int) (st : AdjSt) (y x : Int) :
    ∃ d : List Diag, (adjustCell w h st y x).ds = st.ds ++ d ∧
      (adjustCell w h st y x).ok = (st.ok && d.isEmpty) := by
  unfold adjustCell
  split
  · obtain ⟨d, h1, h2, -, -⟩ := adjustBreakable_step st y x
    exact ⟨d, h1, h2⟩
  · obtain ⟨d1, hb1, hb2, -, -⟩ := adjustBreakable_step st y x
    obtain ⟨d2, hc1, hc2⟩ := adjustCollectible_step w h (adjustBreakable st y x) y x
    refine ⟨d1 ++ d2, ?_, ?_⟩
    · rw [hc1, hb1, List.append_assoc]
    · rw [hc2, hb2]
      cases d1 <;> simp [Bool.and_assoc]

theorem foldl_adjust_inv (w h : Int) (l : List (Int × Int)) :
    ∀ st : AdjSt, (st.ok = true ↔ st.ds = []) →
      ((l.foldl (fun st p => adjustCell w h st p.1 p.2) st).ok = true ↔
        (l.foldl (fun st p => adjustCell w h st p.1 p.2) st).ds = []) := by
  induction l with
  | nil => intro st hinv; exact hinv
  | cons p rest ih =>
    intro st hinv
    apply ih
    obtain ⟨d, h1, h2⟩ := adjustCell_step w h st p.1 p.2
    rw [h1, h2]
    cases d <;> simp [hinv]

theorem foldl_adjust_ok_false (w h : Int) (l : List (Int × Int)) :
    ∀ st : AdjSt, st.ok = false →
      (l.foldl (fun st p => adjustCell w h st p.1 p.2) st).ok = false := by
  induction l with
  | nil => intro st hf; exact hf
  | cons p rest ih =>
    intro st hf
    apply ih
    obtain ⟨d, -, h2⟩ := adjustCell_step w h st p.1 p.2
    rw [h2, hf, Bool.false_and]

theorem foldl_adjust_ds_extend (w h : Int) (l : List (Int × Int)) :
    ∀ st : AdjSt, ∃ D : List Diag,
      (l.foldl (fun st p => adjustCell w h st p.1 p.2) st).ds = st.ds ++ D := by
  induction l with
  | nil => intro st; exact ⟨[], by simp⟩
  | cons p rest ih =>
    intro st
    obtain ⟨d, h1, -⟩ := adjustCell_step w h st p.1 p.2
    obtain ⟨D, hD⟩ := ih (adjustCell w h st p.1 p.2)
    exact ⟨d ++ D, by rw [List.foldl_cons, hD, h1, List.append_assoc]⟩

theorem adjustObstacles_inv (w h : Int) (g : Grid) :
    ((adjustObstacles w h g).ok = true ↔ (adjustObstacles w h g).ds = []) :=
  foldl_adjust_inv w h (coordList w h) ⟨true, 0, g, []⟩ (by simp)

theorem foldl_pair_inv {α : Type} (f : (List Diag × Bool) → α → (List Diag × Bool))
    (hf : ∀ st a, ∃ d : List Diag, (f st a).1 = st.1 ++ d ∧ (f st a).2 = (st.2 && d.isEmpty)) :
    ∀ (l : List α) (st : List Diag × Bool), (st.2 = true ↔ st.1 = []) →
      ((l.foldl f st).2 = true ↔ (l.foldl f st).1 = []) := by
  intro l
  induction l with
  | nil => intro st h; exact h
  | cons a rest ih =>
    intro st h
    apply ih
    obtain ⟨d, h1, h2⟩ := hf st a
    rw [h1, h2]
    cases d <;> simp [h]

theorem checkStartingPoints_inv (start : List (Int × Int)) (tiles : Grid) :
    ((checkStartingPoints start tiles).2 = true ↔ (checkStartingPoints start tiles).1 = []) := by
  unfold checkStartingPoints
  refine foldl_pair_inv _ ?_ start ([], true) (by simp)
  intro st p
  split
  · exact ⟨[Diag.startNotMountable _ _], rfl, by simp⟩
  · exact ⟨[], by simp, by simp⟩

theorem checkTeleportPoints_inv (teleport : List (Int × Int)) (tiles : Grid) :
    ((checkTeleportPoints teleport tiles).2 = true ↔
      (checkTeleportPoints teleport tiles).1 = []) := by
  unfold checkTeleportPoints
  refine foldl_pair_inv _ ?_ teleport ([], true) (by simp)
  intro st p
  split
  · exact ⟨[Diag.teleportNotMountable _ _], rfl, by simp⟩
  · exact ⟨[], by simp, by simp⟩

theorem checkTerminalReactions_inv (w h : Int) (tiles : Grid) :
    ((checkTerminalReactions w h tiles).2 = true ↔
      (checkTerminalReactions w h tiles).1 = []) := by
  unfold checkTerminalReactions
  refine foldl_pair_inv _ ?_ (coordList w h) ([], true) (by simp)
  intro st p
  rw [checkTerminalCell_eq]
  split
  · exact ⟨[Diag.terminalNeedsChain p.1 p.2], rfl, by simp⟩
  · exact ⟨[], by simp, by simp⟩

/-! ## Claim C2 -/

/-- C2 counterexample: a grid holding a collectible-placement violation and
a terminal-reaction violation at once.  The pipeline reports only the
collectible diagnostic (the terminal-reaction check never runs because the
C++ `&&` chain short-circuits), even though that check, run on the same
grid state, does report its own violation.  This refutes the claim that
every violation across all checks is reported. -/
theorem validate_c2_counterexample :
    (processMetadataValidate 4 4 c2ExampleGrid [] []).1 = [Diag.collectibleNearEdge 0 0] ∧
    (processMetadataValidate 4 4 c2ExampleGrid [] []).2.1 = false ∧
    Diag.terminalNeedsChain 2 2 ∈
      (checkTerminalReactions 4 4 (adjustObstacles 4 4 c2ExampleGrid).g).1 := by
  refine ⟨?_, ?_, ?_⟩ <;> decide

/-- C2 amended: the overall result of the validation chain is failure if
and only if at least one diagnostic was reported.  (Within each stage every
violation of the whole grid is accumulated, but the stages themselves are
chained with short-circuiting `&&`, so a failing stage suppresses the
diagnostics of all later stages — the original claim's "reports every one
of those violations across all checks" does not hold.) -/
theorem validate_c2_amended (w h : Int) (g : Grid) (start teleport : List (Int × Int)) :
    ((processMetadataValidate w h g start teleport).2.1 = true ↔
      (processMetadataValidate w h g start teleport).1 = []) := by
  unfold processMetadataValidate
  by_cases ha : (adjustObstacles w h g).ok = true
  · rw [if_pos ha]
    have hads : (adjustObstacles w h g).ds = [] := (adjustObstacles_inv w h g).mp ha
    by_cases hs : (checkStartingPoints start (adjustObstacles w h g).g).2 = true
    · rw [if_pos hs]
      have hsds := (checkStartingPoints_inv start (adjustObstacles w h g).g).mp hs
      by_cases ht : (checkTeleportPoints teleport (adjustObstacles w h g).g).2 = true
      · rw [if_pos ht]
        have htds := (checkTeleportPoints_inv teleport (adjustObstacles w h g).g).mp ht
        by_cases hc : (checkTerminalReactions w h (adjustObstacles w h g).g).2 = true
        · rw [if_pos hc]
          have hcds := (checkTerminalReactions_inv w h (adjustObstacles w h g).g).mp hc
          simp [hads, hsds, htds, hcds, removeGhosts]
        · rw [if_neg hc]
          have hne : (checkTerminalReactions w h (adjustObstacles w h g).g).1 ≠ [] :=
            fun hnil => hc ((checkTerminalReactions_inv w h (adjustObstacles w h g).g).mpr hnil)
          simp [hads, hsds, htds, hne]
      · rw [if_neg ht]
        have hne : (checkTeleportPoints teleport (adjustObstacles w h g).g).1 ≠ [] :=
          fun hnil => ht ((checkTeleportPoints_inv teleport (adjustObstacles w h g).g).mpr hnil)
        simp [hads, hsds, hne]
    · rw [if_neg hs]
      have hne : (checkStartingPoints start (adjustObstacles w h g).g).1 ≠ [] :=
        fun hnil => hs ((checkStartingPoints_inv start (adjustObstacles w h g).g).mpr hnil)
      simp [hads, hne]
  · rw [if_neg ha]
    have hne : (adjustObstacles w h g).ds ≠ [] := by
      intro hnil
      exact ha ((adjustObstacles_inv w h g).mpr hnil)
    simp [hne]

/-! ## Grid characterization of `AdjustObstacles` -/

theorem adjIsBreakable_view (g g' : Grid)
    (hview : ∀ a b, g a b &&& kMountReadMask = g' a b &&& kMountReadMask) :
    ∀ y x dx dy, adjIsBreakable g y x dx dy = adjIsBreakable g' y x dx dy := by
  intro y x dx dy
  unfold adjIsBreakable
  rw [and_eq_of_and_eq (by decide) (hview (y + dy) (x + dx))]

theorem adjIsEmptyOrBreakable_view (g g' : Grid)
    (hview : ∀ a b, g a b &&& kMountReadMask = g' a b &&& kMountReadMask) :
    ∀ y x dx dy, adjIsEmptyOrBreakable g y x dx dy = adjIsEmptyOrBreakable g' y x dx dy := by
  intro y x dx dy
  unfold adjIsEmptyOrBreakable
  rw [and_eq_of_and_eq (by decide) (hview (y + dy) (x + dx)),
    adjIsBreakable_view g g' hview]

theorem adjIsUnbreakableSquare_view (g g' : Grid)
    (hview : ∀ a b, g a b &&& kMountReadMask = g' a b &&& kMountReadMask) :
    ∀ y x dx dy, adjIsUnbreakableSquare g y x dx dy = adjIsUnbreakableSquare g' y x dx dy := by
  intro y x dx dy
  unfold adjIsUnbreakableSquare
  rw [and_eq_of_and_eq (by decide) (hview (y + dy) (x + dx))]

theorem adjEmptyCount_view (g g' : Grid)
    (hview : ∀ a b, g a b &&& kMountReadMask = g' a b &&& kMountReadMask) :
    ∀ y x, adjEmptyCount g y x = adjEmptyCount g' y x := by
  intro y x
  unfold adjEmptyCount
  rw [adjIsEmptyOrBreakable_view g g' hview, adjIsEmptyOrBreakable_view g g' hview,
    adjIsEmptyOrBreakable_view g g' hview, adjIsEmptyOrBreakable_view g g' hview]

theorem collectibleResolve_view (g g' : Grid)
    (hview : ∀ a b, g a b &&& kMountReadMask = g' a b &&& kMountReadMask) :
    ∀ y x, collectibleResolve g y x = collectibleResolve g' y x := by
  intro y x
  unfold collectibleResolve
  simp only [adjEmptyCount_view g g' hview, adjIsUnbreakableSquare_view g g' hview,
    adjIsBreakable_view g g' hview]

theorem collectibleResolve_values (g : Grid) (y x : Int) (d : Nat)
    (hd : collectibleResolve g y x = some d) :
    d = kCollectibleTileUp ∨ d = kCollectibleTileDown ∨
    d = kCollectibleTileLeft ∨ d = kCollectibleTileRight := by
  unfold collectibleResolve at hd
  repeat' split at hd
  all_goals simp_all

theorem adjGridStep_write (w h : Int) :
    ∀ (g : Grid) (y x r c : Int), ¬(r = y ∧ c = x) → adjGridStep w h g y x r c = g r c := by
  intro g y x r c hne
  unfold adjGridStep
  split
  · rfl
  split
  · rfl
  split
  · rfl
  cases hres : collectibleResolve g y x <;> simp [hres, setCell, hne]

theorem adjGridStep_view (w h : Int) :
    ∀ (g : Grid) (y x r c : Int),
      adjGridStep w h g y x r c &&& kMountReadMask = g r c &&& kMountReadMask := by
  intro g y x r c
  unfold adjGridStep
  split
  · rfl
  split
  · rfl
  split
  · rfl
  cases hres : collectibleResolve g y x with
  | none => simp only [hres]
  | some dir =>
    simp only [hres]
    unfold setCell
    split
    case isTrue hrc =>
      rw [hrc.1, hrc.2, and_lor_right, andNot_and_disjoint _ _ _ (by decide)]
      have hdm : dir &&& kMountReadMask = 0 := by
        rcases collectibleResolve_values g y x dir hres with hv | hv | hv | hv <;>
          rw [hv] <;> decide
      rw [hdm, Nat.or_zero]
    case isFalse hrc => rfl

theorem adjGridStep_read (w h : Int) :
    ∀ (g g' : Grid) (y x : Int),
      (∀ a b, g a b &&& kMountReadMask = g' a b &&& kMountReadMask) →
      g y x = g' y x → adjGridStep w h g y x y x = adjGridStep w h g' y x y x := by
  intro g g' y x hview hown
  unfold adjGridStep
  rw [hown, collectibleResolve_view g g' hview y x]
  cases hres : collectibleResolve g' y x <;>
    simp only [hres] <;>
    simp [setCell, hown, ite_apply]

theorem adjustCell_grid (w h : Int) (st : AdjSt) (y x : Int) :
    (adjustCell w h st y x).g = adjGridStep w h st.g y x := by
  have hb : (adjustBreakable st y x).g = st.g := by
    unfold adjustBreakable
    split <;> rfl
  unfold adjustCell adjGridStep
  by_cases h0 : st.g y x &&& kCollectibleTileMask = 0
  · rw [if_pos h0, if_pos h0]
    exact hb
  · rw [if_neg h0, if_neg h0]
    unfold adjustCollectible
    rw [hb]
    split
    · rfl
    split
    · rfl
    split
    · split
      · rfl
      · rfl
    · split
      · rfl
      split
      · rfl
      · rfl

theorem foldl_adjust_grid (w h : Int) (l : List (Int × Int)) :
    ∀ st : AdjSt, (l.foldl (fun st p => adjustCell w h st p.1 p.2) st).g =
      applyCells (adjGridStep w h) l st.g := by
  induction l with
  | nil => intro st; rfl
  | cons p rest ih =>
    intro st
    rw [List.foldl_cons, ih, applyCells_cons, adjustCell_grid]

theorem adjustObstacles_grid (w h : Int) (g : Grid) (r c : Int) :
    (adjustObstacles w h g).g r c =
      if (r, c) ∈ coordList w h then adjGridStep w h g r c r c else g r c := by
  unfold adjustObstacles
  rw [foldl_adjust_grid]
  exact applyCells_eq (adjGridStep w h) kMountReadMask
    (adjGridStep_write w h) (adjGridStep_view w h)
    (adjGridStep_read w h) (coordList w h) (coordList_nodup w h) g r c

theorem collectibleResolve_isSome_iff (g : Grid) (y x : Int) :
    (collectibleResolve g y x).isSome = true ↔ specPatternI g y x ∨ specPatternII g y x := by
  unfold collectibleResolve specPatternI specPatternII
  by_cases h3 : adjEmptyCount g y x = 3
  · cases h1 : adjIsUnbreakableSquare g y x 0 1 <;>
    cases h2 : adjIsUnbreakableSquare g y x 0 (-1) <;>
    cases hq3 : adjIsUnbreakableSquare g y x 1 0 <;>
    cases hq4 : adjIsUnbreakableSquare g y x (-1) 0 <;>
    simp [h3, h1, h2, hq3, hq4]
  · by_cases h4 : adjEmptyCount g y x = 4
    · cases hb1 : adjIsBreakable g y x 0 1 <;>
      cases hb2 : adjIsBreakable g y x 0 (-1) <;>
      cases hb3 : adjIsBreakable g y x 1 0 <;>
      cases hb4 : adjIsBreakable g y x (-1) 0 <;>
      simp [h3, h4, hb1, hb2, hb3, hb4]
    · simp [h3, h4]

/-! ## Claim C4 -/

/-- C4: for an interior collectible cell that overlaps no other
annotations, the resolution succeeds exactly under the two admissible
neighbor patterns; when it succeeds, `AdjustObstacles` leaves the cell with
exactly the one selected direction bit; when it fails, the run fails and a
diagnostic for that very cell is reported.  (The direction bit is named
after the approach direction: the bit for "up" is selected when the wall is
below the cell, per the source's normal-vector naming convention.) -/
theorem collectible_c4 (g : Grid) (w h y x : Int)
    (hx0 : 0 < x) (hxw : x < w - 1) (hy0 : 0 < y) (hyh : y < h - 1)
    (hcol : g y x &&& kCollectibleTileMask ≠ 0)
    (hover : andNot (g y x) (kCollectibleTileMask ||| kTerminalReaction) = 0) :
    ((collectibleResolve g y x).isSome = true ↔ specPatternI g y x ∨ specPatternII g y x) ∧
    (∀ d : Nat, collectibleResolve g y x = some d →
      ((adjustObstacles w h g).g y x &&& kCollectibleTileMask = d ∧
       (d = kCollectibleTileUp ∨ d = kCollectibleTileDown ∨
        d = kCollectibleTileLeft ∨ d = kCollectibleTileRight))) ∧
    (collectibleResolve g y x = none →
      (adjustObstacles w h g).ok = false ∧
      (Diag.collectibleNeedSquare y x ∈ (adjustObstacles w h g).ds ∨
       Diag.collectibleNeedOneWall y x ∈ (adjustObstacles w h g).ds ∨
       Diag.collectibleSurround y x ∈ (adjustObstacles w h g).ds)) := by
  have hmem : (y, x) ∈ coordList w h :=
    (mem_coordList w h y x).mpr ⟨by omega, by omega, by omega, by omega⟩
  refine ⟨collectibleResolve_isSome_iff g y x, ?_, ?_⟩
  · intro d hd
    have hgy : (adjustObstacles w h g).g y x = adjGridStep w h g y x y x := by
      rw [adjustObstacles_grid, if_pos hmem]
    have hstep : adjGridStep w h g y x y x = andNot (g y x) kCollectibleTileMask ||| d := by
      unfold adjGridStep
      rw [if_neg hcol, if_neg (by simp [hover]), if_neg (by omega)]
      simp only [hd]
      simp [setCell]
    have hvals := collectibleResolve_values g y x d hd
    refine ⟨?_, hvals⟩
    rw [hgy, hstep, and_lor_right, andNot_and_self, Nat.zero_or]
    rcases hvals with hv | hv | hv | hv <;> rw [hv] <;> decide
  · intro hnone
    obtain ⟨l1, l2, hsplit⟩ := List.append_of_mem hmem
    have hnd : (l1 ++ (y, x) :: l2).Nodup := by
      rw [← hsplit]
      exact coordList_nodup w h
    have hnotin : (y, x) ∉ l1 ++ l2 := (List.nodup_cons.mp (List.nodup_middle.mp hnd)).1
    have hnotin1 : (y, x) ∉ l1 := fun hh => hnotin (List.mem_append.mpr (Or.inl hh))
    have hl1nd : l1.Nodup := hnd.sublist (List.sublist_append_left l1 _)
    have hfold : adjustObstacles w h g =
        l2.foldl (fun st p => adjustCell w h st p.1 p.2)
          (adjustCell w h
            (l1.foldl (fun st p => adjustCell w h st p.1 p.2) ⟨true, 0, g, []⟩) y x) := by
      unfold adjustObstacles
      rw [hsplit, List.foldl_append, List.foldl_cons]
    have hg1all : ∀ r c, (l1.foldl (fun st p => adjustCell w h st p.1 p.2)
        (⟨true, 0, g, []⟩ : AdjSt)).g r c =
        if (r, c) ∈ l1 then adjGridStep w h g r c r c else g r c := by
      intro r c
      rw [foldl_adjust_grid]
      exact applyCells_eq (adjGridStep w h) kMountReadMask
        (adjGridStep_write w h) (adjGridStep_view w h)
        (adjGridStep_read w h) l1 hl1nd g r c
    have hg1 : (l1.foldl (fun st p => adjustCell w h st p.1 p.2)
        (⟨true, 0, g, []⟩ : AdjSt)).g y x = g y x := by
      rw [hg1all, if_neg hnotin1]
    have hview1 : ∀ a b, (l1.foldl (fun st p => adjustCell w h st p.1 p.2)
        (⟨true, 0, g, []⟩ : AdjSt)).g a b &&& kMountReadMask = g a b &&& kMountReadMask := by
      intro a b
      rw [foldl_adjust_grid]
      exact applyCells_view (adjGridStep w h) kMountReadMask (adjGridStep_view w h) l1 g a b
    set st1 := l1.foldl (fun st p => adjustCell w h st p.1 p.2)
      (⟨true, 0, g, []⟩ : AdjSt) with hst1
    have hres1 : collectibleResolve st1.g y x = none := by
      rw [collectibleResolve_view st1.g g hview1 y x, hnone]
    have htile8 : g y x &&& kBreakableTile = 0 := andNot_zero_sub _ _ _ hover (by decide)
    have hbreak : adjustBreakable st1 y x = st1 := by
      unfold adjustBreakable
      rw [if_neg]
      rintro ⟨hc1, -⟩
      rw [hg1] at hc1
      exact hc1 htile8
    have hstep : ∃ dd : Diag,
        (dd = Diag.collectibleNeedSquare y x ∨ dd = Diag.collectibleNeedOneWall y x ∨
         dd = Diag.collectibleSurround y x) ∧
        (adjustCell w h st1 y x).ds = st1.ds ++ [dd] ∧
        (adjustCell w h st1 y x).ok = false := by
      unfold adjustCell
      rw [if_neg (by rw [hg1]; exact hcol), hbreak]
      unfold adjustCollectible
      rw [if_neg (by rw [hg1]; simp [hover]), if_neg (by omega)]
      simp only [hres1]
      by_cases h3 : adjEmptyCount st1.g y x = 3
      · rw [if_pos h3]
        exact ⟨Diag.collectibleNeedSquare y x, Or.inl rfl, rfl, rfl⟩
      · rw [if_neg h3]
        by_cases h4 : adjEmptyCount st1.g y x = 4
        · rw [if_pos h4]
          exact ⟨Diag.collectibleNeedOneWall y x, Or.inr (Or.inl rfl), rfl, rfl⟩
        · rw [if_neg h4]
          exact ⟨Diag.collectibleSurround y x, Or.inr (Or.inr rfl), rfl, rfl⟩
    obtain ⟨dd, hdd, hds, hok⟩ := hstep
    rw [hfold]
    constructor
    · exact foldl_adjust_ok_false w h l2 _ hok
    · obtain ⟨D, hD⟩ := foldl_adjust_ds_extend w h l2 (adjustCell w h st1 y x)
      have hmemdd : dd ∈ (l2.foldl (fun st p => adjustCell w h st p.1 p.2)
          (adjustCell w h st1 y x)).ds := by
        rw [hD, hds]
        simp
      rcases hdd with hv | hv | hv
      · exact Or.inl (hv ▸ hmemdd)
      · exact Or.inr (Or.inl (hv ▸ hmemdd))
      · exact Or.inr (Or.inr (hv ▸ hmemdd))

/-- C4 witness: a centered collectible over an unbreakable square wall
resolves to exactly the up direction bit. -/
theorem collectible_c4_witness :
    (adjustObstacles 3 3 c4ExampleGrid).g 1 1 &&& kCollectibleTileMask = kCollectibleTileUp :=
  (((collectible_c4 c4ExampleGrid 3 3 1 1 (by decide) (by decide) (by decide) (by decide)
    (by decide) (by decide)).2.1) kCollectibleTileUp (by decide)).1

end Magero
